import Mathlib

set_option maxRecDepth 8000

/-!
Shallow embedding of the lead_reader record-matching core:
`bats_logic.clean_bats_duplicates`, `sales_logic.process_sales_data` and
`compare.compare_bats_sales`.  Tabular data is modelled as a `Frame`: a list of
column names together with rows, where each row is an association list from
column name to `Cell`.  Pandas NaN is `Cell.na`; currency/deposit floats are
modelled as rationals.
-/

/-- Cells of a data frame: a missing value (pandas NaN), a text value, or a
numeric value (floats are modelled as rationals). -/
inductive Cell where
  | na : Cell
  | str : String → Cell
  | num : Rat → Cell
deriving DecidableEq, Repr

/-- A data-frame row: cells keyed by column name. -/
abbrev Row := List (String × Cell)

/-- A data frame: named columns plus rows. A column absent from a row reads as
`Cell.na`, matching a pandas frame where every column has a value in every row. -/
structure Frame where
  cols : List String
  rows : List Row
deriving DecidableEq, Repr

/-- Decidable equality of run results, so concrete runs can be checked by `decide`. -/
instance {ε α : Type} [DecidableEq ε] [DecidableEq α] : DecidableEq (Except ε α) := fun a b =>
  match a, b with
  | Except.error e, Except.error f =>
    if h : e = f then Decidable.isTrue (by rw [h]) else Decidable.isFalse (by simp [h])
  | Except.ok x, Except.ok y =>
    if h : x = y then Decidable.isTrue (by rw [h]) else Decidable.isFalse (by simp [h])
  | Except.error _, Except.ok _ => Decidable.isFalse (by simp)
  | Except.ok _, Except.error _ => Decidable.isFalse (by simp)

/-- Read the cell of row `r` at column `c` (first entry with that key; `na` if
none, as for a pandas column that was never assigned). -/
def getCell (r : Row) (c : String) : Cell :=
  match r.find? (fun kv => kv.1 == c) with
  | some kv => kv.2
  | none => Cell.na

/-- Overwrite (or append) the cell of row `r` at column `c`. -/
def setCell (r : Row) (c : String) (v : Cell) : Row :=
  match r with
  | [] => [(c, v)]
  | (k, w) :: t => if k == c then (c, v) :: t else (k, w) :: setCell t c v

/-- ASCII upper/lower case table used by Python `str.lower` on the column and
cell values appearing in this system. -/
def upperLower : List (Char × Char) :=
  [('A', 'a'), ('B', 'b'), ('C', 'c'), ('D', 'd'), ('E', 'e'), ('F', 'f'),
   ('G', 'g'), ('H', 'h'), ('I', 'i'), ('J', 'j'), ('K', 'k'), ('L', 'l'),
   ('M', 'm'), ('N', 'n'), ('O', 'o'), ('P', 'p'), ('Q', 'q'), ('R', 'r'),
   ('S', 's'), ('T', 't'), ('U', 'u'), ('V', 'v'), ('W', 'w'), ('X', 'x'),
   ('Y', 'y'), ('Z', 'z')]

/-- Lower-case one character (ASCII, as exercised by the Python code). -/
def lowerChar (c : Char) : Char :=
  (((upperLower.find? (fun p => p.1 == c)).map (fun p => p.2)).getD c)

/-- Python whitespace recognised by `str.strip()`. -/
def isPySpace (c : Char) : Bool :=
  c == ' ' || c == '\t' || c == '\n' || c == '\r' || c == '\x0b' || c == '\x0c'

/-- Python `str.strip()` on a character list. -/
def stripL (l : List Char) : List Char :=
  ((l.dropWhile isPySpace).reverse.dropWhile isPySpace).reverse

/-- Python `str.strip()`. -/
def pyStrip (s : String) : String := String.mk (stripL s.data)

/-- Python `str.lower()` (ASCII letters). -/
def pyLower (s : String) : String := String.mk (s.data.map lowerChar)

/-- Python `needle in hay` prefix test on character lists. -/
def isPrefixL : List Char → List Char → Bool
  | [], _ => true
  | _ :: _, [] => false
  | a :: as, b :: bs => a == b && isPrefixL as bs

/-- Python `needle in hay` substring test on character lists. -/
def containsL : List Char → List Char → Bool
  | n, [] => n.isEmpty
  | n, c :: t => isPrefixL n (c :: t) || containsL n t

/-- Python `needle in hay` substring test. -/
def containsSub (needle hay : String) : Bool := containsL needle.data hay.data

/-- Normalisation applied by `.astype(str).str.strip().str.lower()`:
strip then lower-case. -/
def normStr (s : String) : String := pyLower (pyStrip s)

/-- Decimal digit string of a natural number (digits of `Nat.repr`). -/
def natDigits (n : Nat) : List Char := (Nat.repr n).data

/-- Split the digit string of a number into groups of three, least-significant
group first. -/
def chunk3 : List Char → List (List Char)
  | [] => []
  | a :: t => ((a :: t).take 3) :: chunk3 ((a :: t).drop 3)
termination_by l => l.length
decreasing_by simp [List.length_drop]; omega

/-- Comma-grouped rendering of a natural number, as in Python `f"{n:,}"`. -/
def commaGroup (n : Nat) : String :=
  String.intercalate "," (((chunk3 (natDigits n).reverse).map List.reverse).reverse.map String.mk)

/-- Round a rational to the nearest integer, ties to even (Python / NumPy
rounding used by `round` and string formatting). -/
def roundHalfEven (q : Rat) : Int :=
  let f := q.floor
  let r := q - (f : Rat)
  if r < 1 / 2 then f
  else if 1 / 2 < r then f + 1
  else if f % 2 == 0 then f else f + 1

/-- Round a rational to two decimal places (pandas `.round(2)`). -/
def roundTo2 (q : Rat) : Rat := (roundHalfEven (q * 100) : Rat) / 100

/-- Python `f"${x:,.0f}"`: currency display of a float. -/
def formatCurrency (q : Rat) : String :=
  let k := roundHalfEven q
  (if k < 0 then "$-" else "$") ++ commaGroup k.natAbs

/-- Decimal rendering of a rational, standing in for Python `str(float)`.
Exact for values with a finite decimal expansion of at most 25 digits, which
covers every numeric value manipulated by this system. -/
def ratRepr (q : Rat) : String :=
  let sign := if q < 0 then "-" else ""
  let n := q.num.natAbs
  let d := q.den
  if d == 1 then sign ++ Nat.repr n ++ ".0"
  else
    match (List.range 26).find? (fun k => 10 ^ k % d == 0) with
    | some k =>
      let scaled := n * (10 ^ k / d)
      let ip := scaled / 10 ^ k
      let fp := scaled % 10 ^ k
      let fs := Nat.repr fp
      let fpad := String.mk (List.replicate (k - fs.length) '0') ++ fs
      sign ++ Nat.repr ip ++ "." ++ fpad
    | none => sign ++ Nat.repr n ++ "/" ++ Nat.repr d

/-- Python `str(value)` of a cell (`astype(str)`; NaN prints as `"nan"`). -/
def pyStr : Cell → String
  | Cell.na => "nan"
  | Cell.str s => s
  | Cell.num q => ratRepr q

/-- Normalise a cell: `.astype(str).str.strip().str.lower()`. -/
def normCell (c : Cell) : Cell := Cell.str (normStr (pyStr c))

/-- Keep the first element of each group of `key`-equal elements, preserving
order (pandas `drop_duplicates(keep="first")` / Python `set` insertion order). -/
def dedupBy {α κ : Type} [DecidableEq κ] (key : α → κ) : List α → List α
  | [] => []
  | a :: t => a :: dedupBy key (t.filter (fun x => key x != key a))
termination_by l => l.length
decreasing_by
  simp
  exact Nat.lt_succ_of_le (List.length_filter_le _ _)

/-- Insert into a list sorted by the boolean relation `le`. -/
def insertB {α : Type} (le : α → α → Bool) (a : α) : List α → List α
  | [] => [a]
  | b :: t => if le a b then a :: b :: t else b :: insertB le a t

/-- Insertion sort by the boolean relation `le` (models the sorted key order of
pandas `groupby(sort=True)` / `sort_values`). -/
def sortByB {α : Type} (le : α → α → Bool) (l : List α) : List α :=
  l.foldr (insertB le) []

/-- Strict comparison of cells: numbers by value, strings lexicographically
(the mixed-kind ranking is immaterial: grouped keys of one column share a kind). -/
def cellLtB : Cell → Cell → Bool
  | Cell.na, Cell.na => false
  | Cell.na, _ => true
  | Cell.num _, Cell.na => false
  | Cell.num a, Cell.num b => decide (a < b)
  | Cell.num _, Cell.str _ => true
  | Cell.str _, Cell.na => false
  | Cell.str _, Cell.num _ => false
  | Cell.str a, Cell.str b => decide (a < b)

/-- Non-strict cell comparison. -/
def cellLeB (a b : Cell) : Bool := !(cellLtB b a)

/-- Cell comparison used by `sort_values(..., na_position="last")`. -/
def cellLtNaLastB : Cell → Cell → Bool
  | Cell.na, _ => false
  | _, Cell.na => true
  | a, b => cellLtB a b

/-- Non-strict version of `cellLtNaLastB`. -/
def cellLeNaLastB (a b : Cell) : Bool := !(cellLtNaLastB b a)

/-- Strict lexicographic comparison of string keys (Python `sorted`). -/
def strLtB (a b : String) : Bool := decide (a < b)

/-- Non-strict lexicographic comparison of strings. -/
def strLeB (a b : String) : Bool := !(strLtB b a)

/-- Generic `groupby(...).agg(...)`: drop rows with a missing key when `dropna`
is set (the pandas default), take the distinct keys in sorted order
(`sort=True`), and apply the aggregator to each key group. -/
def groupAgg {κ α : Type} [DecidableEq κ] (isNaK : κ → Bool) (leB : κ → κ → Bool)
    (keyOf : Row → κ) (aggF : List Row → α) (dropna : Bool) (rows : List Row) :
    List (κ × α) :=
  let valid := if dropna then rows.filter (fun r => !(isNaK (keyOf r))) else rows
  let keys := sortByB leB (dedupBy id (valid.map keyOf))
  keys.map (fun k => (k, aggF (valid.filter (fun r => keyOf r == k))))

/-- Lookup in an association list with `Cell` keys; models a left merge against
a grouped table, whose keys are distinct. -/
def leftLookup {α : Type} (tbl : List (Cell × α)) (k : Cell) : Option α :=
  (tbl.find? (fun p => p.1 == k)).map (fun p => p.2)

/-! ## bats_logic.clean_bats_duplicates -/

/-- Column detection `next((c for c in out.columns if "assigned" in str(c).lower()), None)`. -/
def assignedColOfB (df : Frame) : Option String :=
  df.cols.find? (fun c => containsSub "assigned" (pyLower c))

/-- Rows after the `Assigned To` normalisation step of `clean_bats_duplicates`. -/
def normalizedRowsOf (df : Frame) : List Row :=
  match assignedColOfB df with
  | none => df.rows
  | some c => df.rows.map (fun r => setCell r c (normCell (getCell r c)))

/-- Dedup key columns of `clean_bats_duplicates`: the exact headers
`Phone`/`Assigned To`/`Source` when all three are present, otherwise the
flexible substring-matched columns. -/
def subsetColsOf (df : Frame) : List String :=
  let exact := df.cols.filter (fun c => c == "Phone" || c == "Assigned To" || c == "Source")
  if exact.length < 3 then
    [df.cols.find? (fun c => containsSub "phone" (pyLower c)),
     assignedColOfB df,
     df.cols.find? (fun c => containsSub "source" (pyLower c))].filterMap id
  else exact

/-- Embedding of `bats_logic.clean_bats_duplicates`: returns the cleaned frame,
the number of removed rows, and the per-source lead counts. -/
def clean_bats_duplicates (df : Frame) : Frame × Nat × List (Cell × Nat) :=
  let rows0 := normalizedRowsOf df
  let before := rows0.length
  let subset := subsetColsOf df
  let rows1 := if subset.isEmpty then rows0
    else dedupBy (fun r => subset.map (getCell r)) rows0
  let removed := before - rows1.length
  let summary :=
    match df.cols.find? (fun c => containsSub "source" (pyLower c)) with
    | some c => groupAgg (fun k => k == Cell.na) cellLeB (fun r => getCell r c)
        (fun g => g.length) true rows1
    | none => []
  (⟨df.cols, rows1⟩, removed, summary)

/-! ## sales_logic.process_sales_data -/

/-- Strip the column names of a frame (`[str(c).strip() for c in df.columns]`),
renaming row keys accordingly so the data stays aligned with its columns. -/
def stripColsFrame (f : Frame) : Frame :=
  ⟨f.cols.map pyStrip, f.rows.map (fun r => r.map (fun kv => (pyStrip kv.1, kv.2)))⟩

/-- One pattern of `_find_col`: `"*tok*"` is a substring test on the normalised
column name, anything else an exact match. -/
def patMatchB (lc pat : String) : Bool :=
  if pat.data.head? == some '*' && pat.data.getLast? == some '*' then
    containsSub (String.mk (((pat.data.dropWhile (fun c => c == '*')).reverse.dropWhile
      (fun c => c == '*')).reverse)) lc
  else lc == pat

/-- Embedding of `sales_logic._find_col`: first column whose stripped,
lower-cased name matches one of the patterns. -/
def findCol (cols : List String) (checks : List String) : Option String :=
  cols.find? (fun c => checks.any (fun pat => patMatchB (pyLower (pyStrip c)) pat))

/-- Resolution of the sales agent column. -/
def salesAgentColOf (sales : Frame) : Option String :=
  findCol (stripColsFrame sales).cols ["agent", "agents", "agent name"]

/-- Resolution of the BATS assigned-to column. -/
def batsAssignedColOf (bats : Frame) : Option String :=
  (stripColsFrame bats).cols.find? (fun c => containsSub "assigned" (pyLower c))

/-- Resolution of the sales order-id column. -/
def orderIdColSalesOf (sales : Frame) : Option String :=
  (stripColsFrame sales).cols.find? (fun c => containsSub "order id" (pyLower c))

/-- Resolution of the BATS order-id column (header containing `number`). -/
def orderIdColBatsOf (bats : Frame) : Option String :=
  (stripColsFrame bats).cols.find? (fun c => containsSub "number" (pyLower c))

/-- Resolution of the sales customer-name column. -/
def nameColSalesOf (sales : Frame) : Option String :=
  findCol (stripColsFrame sales).cols ["name", "customer name"]

/-- Resolution of the BATS customer-name column. -/
def nameColBatsOf (bats : Frame) : Option String :=
  (stripColsFrame bats).cols.find? (fun c => containsSub "customer name" (pyLower c))

/-- Resolution of the sales deposit column. -/
def depositColSalesOf (sales : Frame) : Option String :=
  (stripColsFrame sales).cols.find? (fun c => containsSub "deposit" (pyLower c))

/-- Resolution of the BATS source column. -/
def sourceColBatsOf (bats : Frame) : Option String :=
  (stripColsFrame bats).cols.find? (fun c => containsSub "source" (pyLower c))

/-- The `missing` list of `process_sales_data`, in source order.  String quotes
of the original name message are omitted. -/
def missingListOf (sales bats : Frame) : List String :=
  (if (salesAgentColOf sales).isNone then ["Sales: Agent/Agents"] else [])
  ++ (if (batsAssignedColOf bats).isNone then ["BATS: Assigned To"] else [])
  ++ (if (depositColSalesOf sales).isNone then ["Sales: Deposit"] else [])
  ++ (if (sourceColBatsOf bats).isNone then ["BATS: Source"] else [])
  ++ (if (nameColSalesOf sales).isNone || (nameColBatsOf bats).isNone then
        ["Name (Sales Name and BATS Customer Name)"] else [])

/-- Normalise one (optionally resolved) text column of a frame. -/
def normColFrame (f : Frame) (c : Option String) : Frame :=
  match c with
  | none => f
  | some c => ⟨f.cols, f.rows.map (fun r => setCell r c (normCell (getCell r c)))⟩

/-- Sales frame after header stripping and agent/name text normalisation. -/
def salesNormOf (sales : Frame) : Frame :=
  normColFrame (normColFrame (stripColsFrame sales) (salesAgentColOf sales)) (nameColSalesOf sales)

/-- BATS frame after header stripping and assigned/customer-name normalisation. -/
def batsNormOf (bats : Frame) : Frame :=
  normColFrame (normColFrame (stripColsFrame bats) (batsAssignedColOf bats)) (nameColBatsOf bats)

/-- Characters kept by the regex `[^\d.\-]` replacement of
`_clean_currency_to_float`. -/
def keepNumChar (c : Char) : Bool := c.isDigit || c == '.' || c == '-'

/-- Residue of a deposit string after stripping non-numeric characters. -/
def stripNonNum (s : String) : List Char := s.data.filter keepNumChar

/-- Whether a stripped residue is accepted by Python `float()`: an optional
leading minus, then digits with at most one decimal point and at least one
digit. -/
def validFloat (l : List Char) : Bool :=
  let t := match l with
    | c :: r => if c == '-' then r else l
    | [] => []
  t.any (fun c => c.isDigit) && t.all (fun c => c.isDigit || c == '.')
    && (t.filter (fun c => c == '.')).length ≤ 1

/-- Numeric value of a digit list. -/
def digitsVal (l : List Char) : Nat :=
  l.foldl (fun a c => a * 10 + (c.toNat - 48)) 0

/-- Value of an unsigned decimal literal. -/
def parseUnsigned (l : List Char) : Rat :=
  let ip := l.takeWhile (fun c => c != '.')
  let fp := match l.dropWhile (fun c => c != '.') with
    | [] => []
    | _ :: t => t
  (digitsVal ip : Rat) + (digitsVal fp : Rat) / ((10 : Rat) ^ fp.length)

/-- Value of a decimal literal with optional leading minus. -/
def parseFloat (l : List Char) : Rat :=
  match l with
  | [] => 0
  | c :: r => if c == '-' then -(parseUnsigned r) else parseUnsigned l

/-- Embedding of `_clean_currency_to_float` on one cell:
`astype(str)`, strip the non-numeric characters, map the empty residue to NaN,
and convert the rest with `astype(float)` - which raises on a residue that is
not a float literal.  A numeric cell round-trips through its decimal rendering. -/
def cleanCell : Cell → Except String Cell
  | Cell.na => Except.ok Cell.na
  | Cell.num q => Except.ok (Cell.num q)
  | Cell.str s =>
    let t := stripNonNum s
    if t.isEmpty then Except.ok Cell.na
    else if validFloat t then Except.ok (Cell.num (parseFloat t))
    else Except.error ("could not convert string to float: " ++ String.mk t)

/-- Clean the deposit cell of one row. -/
def cleanRowDeposit (dc : String) (r : Row) : Except String Row :=
  (cleanCell (getCell r dc)).map (fun v => setCell r dc v)

/-- Normalised sales frame with the deposit column cleaned and rows filtered to
`notna() & (> 0)`. -/
def cleanDepositOf (sales : Frame) : Except String Frame :=
  match depositColSalesOf sales with
  | none => Except.error "no deposit column"
  | some dc =>
    let f := salesNormOf sales
    (f.rows.mapM (cleanRowDeposit dc)).map (fun rs =>
      ⟨f.cols, rs.filter (fun r =>
        match getCell r dc with
        | Cell.num q => decide (0 < q)
        | _ => false)⟩)

/-- Triple key of a row at three columns. -/
def key3Of (c1 c2 c3 : String) (r : Row) : Cell × Cell × Cell :=
  (getCell r c1, getCell r c2, getCell r c3)

/-- Whether any component of a triple key is missing. -/
def key3Na (k : Cell × Cell × Cell) : Bool :=
  k.1 == Cell.na || k.2.1 == Cell.na || k.2.2 == Cell.na

/-- Lexicographic strict comparison of triple keys. -/
def key3LtB (a b : Cell × Cell × Cell) : Bool :=
  cellLtB a.1 b.1 || (a.1 == b.1 && (cellLtB a.2.1 b.2.1
    || (a.2.1 == b.2.1 && cellLtB a.2.2 b.2.2)))

/-- Non-strict comparison of triple keys. -/
def key3LeB (a b : Cell × Cell × Cell) : Bool := !(key3LtB b a)

/-- Sum of the numeric deposit cells of a group (pandas `sum` skips NaN). -/
def sumDepositCells (dc : String) (g : List Row) : Rat :=
  (g.map (fun r => match getCell r dc with
    | Cell.num q => q
    | _ => 0)).sum

/-- Pre-aggregation of the cleaned sales frame by
`(order_id, agent, name)` with deposits summed, applied only when the sales
order-id column resolves (the remaining columns are resolved whenever
`process_sales_data` passes validation). -/
def preAggOf (sales : Frame) (sf : Frame) : Frame :=
  match orderIdColSalesOf sales, salesAgentColOf sales, nameColSalesOf sales,
      depositColSalesOf sales with
  | some oc, some ac, some nc, some dc =>
    ⟨[oc, ac, nc, dc],
     (groupAgg key3Na key3LeB (key3Of oc ac nc) (sumDepositCells dc) true sf.rows).map
       (fun ka => [(oc, ka.1.1), (ac, ka.1.2.1), (nc, ka.1.2.2), (dc, Cell.num ka.2)])⟩
  | _, _, _, _ => sf

/-- Restrict a frame to the listed columns (pandas `df[cols]`). -/
def selectCols (f : Frame) (keep : List String) : Frame :=
  let cs := f.cols.filter (fun c => keep.contains c)
  ⟨cs, f.rows.map (fun r => r.filter (fun kv => cs.contains kv.1))⟩

/-- Sales columns kept for matching. -/
def salesKeepOf (sales : Frame) : List String :=
  [orderIdColSalesOf sales, nameColSalesOf sales, salesAgentColOf sales,
   depositColSalesOf sales].filterMap id

/-- The `sales_min` frame. -/
def salesMinOf (sales : Frame) (sf : Frame) : Frame :=
  selectCols (preAggOf sales sf) (salesKeepOf sales)

/-- BATS columns kept for matching. -/
def batsKeepOf (bats : Frame) : List String :=
  [orderIdColBatsOf bats, nameColBatsOf bats, batsAssignedColOf bats,
   sourceColBatsOf bats].filterMap id

/-- The `bats_min` frame. -/
def batsMinOf (bats : Frame) : Frame :=
  selectCols (batsNormOf bats) (batsKeepOf bats)

/-- Key agreement of a left and right row on paired join columns (`pd.merge`
treats two NaN keys as equal). -/
def keysMatchB (lk rk : List String) (lr rr : Row) : Bool :=
  (lk.zip rk).all (fun p => getCell lr p.1 == getCell rr p.2)

/-- Suffix the overlapping column names of one side of a merge. -/
def renameOv (ov : List String) (suf : String) (r : Row) : Row :=
  r.map (fun kv => if ov.contains kv.1 then (kv.1 ++ suf, kv.2) else kv)

/-- Names of key pairs whose left and right column name coincide: `pd.merge`
coalesces such a pair into a single unsuffixed column instead of suffixing
both sides. -/
def eqKeyNames (lk rk : List String) : List String :=
  ((lk.zip rk).filter (fun p => p.1 == p.2)).map (fun p => p.2)

/-- Remove the entries of the listed columns from a row. -/
def dropColsRow (drop : List String) (r : Row) : Row :=
  r.filter (fun kv => !(drop.contains kv.1))

/-- Key columns `pd.merge` drops from the left frame before suffixing: for an
equal-named key pair the surviving coalesced column is normally the left one,
but with a row-less left frame pandas drops the left key instead (a length-0
corner that only decides which of two identically named columns survives; the
inner join is empty there). -/
def mergeLeftDrop (L : Frame) (lk rk : List String) : List String :=
  if L.rows.isEmpty then eqKeyNames lk rk else []

/-- Key columns `pd.merge` drops from the right frame before suffixing (the
usual direction of coalescing an equal-named key pair). -/
def mergeRightDrop (L : Frame) (lk rk : List String) : List String :=
  if L.rows.isEmpty then [] else eqKeyNames lk rk

/-- Left columns surviving the key coalescing. -/
def mergeLeftCols (L : Frame) (lk rk : List String) : List String :=
  L.cols.filter (fun c => !((mergeLeftDrop L lk rk).contains c))

/-- Right columns surviving the key coalescing. -/
def mergeRightCols (L R : Frame) (lk rk : List String) : List String :=
  R.cols.filter (fun c => !((mergeRightDrop L lk rk).contains c))

/-- Overlapping column names of a merge, computed after the key coalescing:
the names the suffixes apply to, on both sides. -/
def mergeOv (L R : Frame) (lk rk : List String) : List String :=
  (mergeLeftCols L lk rk).filter (fun c => (mergeRightCols L R lk rk).contains c)

/-- Embedding of `pd.merge(..., how="inner")` with `left_on`/`right_on` key
lists: an equal-named key pair keeps one unsuffixed column (the right key
column is dropped), and every other name common to both sides is suffixed on
both sides. -/
def mergeFrames (L R : Frame) (lk rk : List String) (sl sr : String) : Frame :=
  ⟨(mergeLeftCols L lk rk).map
      (fun c => if (mergeOv L R lk rk).contains c then c ++ sl else c)
    ++ (mergeRightCols L R lk rk).map
      (fun c => if (mergeOv L R lk rk).contains c then c ++ sr else c),
   L.rows.flatMap (fun lr =>
     (R.rows.filter (fun rr => keysMatchB lk rk lr rr)).map
       (fun rr => renameOv (mergeOv L R lk rk) sl lr
         ++ renameOv (mergeOv L R lk rk) sr (dropColsRow (mergeRightDrop L lk rk) rr)))⟩

/-- The first (order-id + agent) matching pass; the empty frame stands for the
`pd.DataFrame()` placeholder when an order-id column is unavailable. -/
def firstPassOf (sales bats : Frame) (sf : Frame) : Frame :=
  match orderIdColSalesOf sales, orderIdColBatsOf bats, salesAgentColOf sales,
      batsAssignedColOf bats with
  | some oc, some ob, some ac, some bc =>
    mergeFrames (salesMinOf sales sf) (batsMinOf bats) [oc, ac] [ob, bc] "_sales" "_bats"
  | _, _, _, _ => ⟨[], []⟩

/-- The `matched_ids` set: order ids of first-pass rows, NaN dropped, as
strings. -/
def matchedIdsOf (sales bats : Frame) (sf : Frame) : List String :=
  match orderIdColSalesOf sales with
  | some oc => (firstPassOf sales bats sf).rows.filterMap (fun r =>
      match getCell r oc with
      | Cell.na => none
      | c => some (pyStr c))
  | none => []

/-- The `unmatched_sales` rows fed to the second pass. -/
def unmatchedOf (sales bats : Frame) (sf : Frame) : List Row :=
  let fp := firstPassOf sales bats sf
  let sm := salesMinOf sales sf
  if fp.rows.isEmpty then sm.rows
  else
    match orderIdColSalesOf sales with
    | some oc =>
      if fp.cols.contains oc then
        sm.rows.filter (fun r =>
          !((matchedIdsOf sales bats sf).contains (pyStr (getCell r oc))))
      else sm.rows
    | none => sm.rows

/-- The second (name + agent) matching pass over the unmatched sales rows. -/
def secondPassOf (sales bats : Frame) (sf : Frame) : Frame :=
  match nameColSalesOf sales, nameColBatsOf bats, salesAgentColOf sales,
      batsAssignedColOf bats with
  | some nc, some nb, some ac, some bc =>
    mergeFrames ⟨(salesMinOf sales sf).cols, unmatchedOf sales bats sf⟩ (batsMinOf bats)
      [nc, ac] [nb, bc] "_sales" "_bats"
  | _, _, _, _ => ⟨[], []⟩

/-- `pd.concat` of two frames: union of columns, rows appended. -/
def concatFrames (A B : Frame) : Frame :=
  ⟨A.cols ++ B.cols.filter (fun c => !(A.cols.contains c)), A.rows ++ B.rows⟩

/-- Union of the two matching passes. -/
def combinedOf (sales bats : Frame) (sf : Frame) : Frame :=
  concatFrames (firstPassOf sales bats sf) (secondPassOf sales bats sf)

/-- Combined matches restricted to rows with a resolved (non-NaN) source.
`process_sales_data` first checks that the source column name is present in
the concatenated frame and raises a `KeyError` otherwise; a row of the other
pass lacking the entry reads NaN, as `pd.concat` fills. -/
def combinedFilteredOf (sales bats : Frame) (sf : Frame) : Frame :=
  match sourceColBatsOf bats with
  | some sc => ⟨(combinedOf sales bats sf).cols,
      (combinedOf sales bats sf).rows.filter (fun r => !(getCell r sc == Cell.na))⟩
  | none => combinedOf sales bats sf

/-- The pre-grouping matched table with the five canonical columns.  The
order-id column is read with the total `combined.get` (NaN when unavailable);
the name, agent, deposit and source columns are read with `combined[col]`,
whose presence `process_sales_data` checks first (a `KeyError` when a merge
suffix-renamed the name away); a row of the other pass lacking an entry of a
present column reads NaN, as `pd.concat` fills. -/
def outPreOf (sales bats : Frame) (sf : Frame) : Frame :=
  ⟨["Order ID", "Name", "Agent", "Deposit", "Source"],
   (combinedFilteredOf sales bats sf).rows.map (fun r =>
     [("Order ID", match orderIdColSalesOf sales with
        | some oc => getCell r oc
        | none => Cell.na),
      ("Name", match nameColSalesOf sales with
        | some nc => getCell r nc
        | none => Cell.na),
      ("Agent", match salesAgentColOf sales with
        | some ac => getCell r ac
        | none => Cell.na),
      ("Deposit", match depositColSalesOf sales with
        | some dc => getCell r dc
        | none => Cell.na),
      ("Source", match sourceColBatsOf bats with
        | some sc => getCell r sc
        | none => Cell.na)])⟩

/-- The order-id display string of one `(Source, Name, Agent)` group:
`", ".join(sorted(set(str(v) for v in x if pd.notna(v))))`. -/
def orderIdsJoin (g : List Row) : String :=
  String.intercalate ", " (sortByB strLeB (dedupBy id (g.filterMap (fun r =>
    match getCell r "Order ID" with
    | Cell.na => none
    | c => some (pyStr c)))))

/-- The final matched-sales table: grouped by `(Source, Name, Agent)` with
deposits summed and order ids joined. -/
def outOf (sales bats : Frame) (sf : Frame) : Frame :=
  ⟨["Source", "Name", "Agent", "Deposit", "Order ID"],
   (groupAgg key3Na key3LeB (key3Of "Source" "Name" "Agent")
      (fun g => (sumDepositCells "Deposit" g, orderIdsJoin g)) true
      (outPreOf sales bats sf).rows).map
     (fun ka => [("Source", ka.1.1), ("Name", ka.1.2.1), ("Agent", ka.1.2.2),
                 ("Deposit", Cell.num ka.2.1), ("Order ID", Cell.str ka.2.2)])⟩

/-- The per-source summary: deposits summed and rows (non-NaN names, one per
unique sale) counted per source, sorted by source with NaN last. -/
def summaryOf (sales bats : Frame) (sf : Frame) : Frame :=
  ⟨["Source", "Deposits", "Total_Unique_Sales"],
   sortByB (fun r1 r2 => cellLeNaLastB (getCell r1 "Source") (getCell r2 "Source"))
    ((groupAgg (fun k => k == Cell.na) cellLeB (fun r => getCell r "Source")
       (fun g => (sumDepositCells "Deposit" g,
                  (g.filter (fun r => !(getCell r "Name" == Cell.na))).length))
       true (outOf sales bats sf).rows).map
      (fun ka => [("Source", ka.1), ("Deposits", Cell.num ka.2.1),
                  ("Total_Unique_Sales", Cell.num (ka.2.2 : Rat))]))⟩

/-- Canonical empty matched-sales table. -/
def emptyMatchedFrame : Frame := ⟨["Order ID", "Name", "Agent", "Deposit", "Source"], []⟩

/-- Canonical empty summary table. -/
def emptySummaryFrame : Frame := ⟨["Source", "Deposits", "Total_Unique_Sales"], []⟩

/-- A `combined[c]` column access: pandas raises a `KeyError` when the
requested column name is absent from the frame (for instance after a merge
suffix-renamed it); the resolved name is always `some` once validation
passed. -/
def requireCol (f : Frame) (c : Option String) : Except String Unit :=
  match c with
  | some cn =>
    if f.cols.contains cn then Except.ok () else Except.error ("KeyError: " ++ cn)
  | none => Except.ok ()

/-- Embedding of `sales_logic.process_sales_data`: validate the required
columns (raising one message that lists all missing roles), normalise text,
clean and filter deposits (a hard error on an unparsable residue),
pre-aggregate by order id, run the two matching passes, filter the
concatenation to rows with a non-missing source (a `KeyError` when the source
column name was suffix-renamed away by the merges), return the canonical empty
tables when nothing survives, and otherwise read the name, agent and deposit
columns (each a `KeyError` when renamed away, in the access order of the
source) and group into the matched table plus per-source summary. -/
def process_sales_data (sales bats : Frame) : Except String (Frame × Frame) :=
  if missingListOf sales bats = [] then
    (cleanDepositOf sales).bind (fun sf =>
      (requireCol (combinedOf sales bats sf) (sourceColBatsOf bats)).bind (fun _ =>
        if (combinedFilteredOf sales bats sf).rows.isEmpty then
          Except.ok (emptyMatchedFrame, emptySummaryFrame)
        else
          (requireCol (combinedOf sales bats sf) (nameColSalesOf sales)).bind (fun _ =>
            (requireCol (combinedOf sales bats sf) (salesAgentColOf sales)).bind (fun _ =>
              (requireCol (combinedOf sales bats sf) (depositColSalesOf sales)).bind (fun _ =>
                Except.ok (outOf sales bats sf, summaryOf sales bats sf))))))
  else
    Except.error ("Required columns missing or not detected: "
      ++ String.intercalate ", " (missingListOf sales bats))

/-! ## compare.compare_bats_sales -/

/-- One row of the final per-source report table. -/
structure ReportRow where
  source : Cell
  totalLeads : Nat
  deposits : String
  totalUniqueSales : Nat
  leadCost : Rat
  totalLeadsCost : Rat
deriving DecidableEq, Repr

/-- The sales-side frame and source column of `compare_bats_sales`: the
stripped matched table and its detected source column, or an appended all-NaN
`Source` column when none is found. -/
def compareSalesSrc (matched : Frame) : Frame × String :=
  let sales0 := stripColsFrame matched
  match sales0.cols.find? (fun c => containsSub "source" (pyLower c)) with
  | some c => (sales0, c)
  | none => (⟨sales0.cols ++ ["Source"], sales0.rows⟩, "Source")

/-- Total leads per source from the BATS frame (`groupby(src_bats).size()`). -/
def compareLeads (bats : Frame) (srcB : String) : List (Cell × Nat) :=
  groupAgg (fun k => k == Cell.na) cellLeB (fun r => getCell r srcB)
    (fun g => g.length) true (stripColsFrame bats).rows

/-- The sales frame with a zero `Deposit` column filled in when absent. -/
def compareSales2 (matched : Frame) : Frame :=
  let sales1 := (compareSalesSrc matched).1
  if sales1.cols.contains "Deposit" then sales1
  else ⟨sales1.cols ++ ["Deposit"],
        sales1.rows.map (fun r => setCell r "Deposit" (Cell.num 0))⟩

/-- Deposits summed per source (`groupby(src_sales, dropna=False)["Deposit"].sum()`). -/
def compareDeposits (matched : Frame) : List (Cell × Rat) :=
  groupAgg (fun k => k == Cell.na) cellLeB (fun r => getCell r (compareSalesSrc matched).2)
    (fun g => sumDepositCells "Deposit" g) false (compareSales2 matched).rows

/-- The unique-sales count per source: `nunique` of non-null order ids when any
exists, else `nunique` of the `Name||Agent` key, else zero. -/
def compareUniq (matched : Frame) : List (Cell × Nat) :=
  let srcS := (compareSalesSrc matched).2
  let sales2 := compareSales2 matched
  if sales2.cols.contains "Order ID"
      && sales2.rows.any (fun r => !(getCell r "Order ID" == Cell.na)) then
    groupAgg (fun k => k == Cell.na) cellLeB (fun r => getCell r srcS)
      (fun g => (dedupBy id (g.map (fun r => getCell r "Order ID"))).length) true
      (sales2.rows.filter (fun r => !(getCell r "Order ID" == Cell.na)))
  else if sales2.cols.contains "Name" && sales2.cols.contains "Agent" then
    groupAgg (fun k => k == Cell.na) cellLeB (fun r => getCell r srcS)
      (fun g => (dedupBy id (g.map (fun r =>
        pyStr (getCell r "Name") ++ "||" ++ pyStr (getCell r "Agent")))).length)
      true sales2.rows
  else (compareDeposits matched).map (fun p => (p.1, 0))

/-- One report row: left-merge the deposit and unique tables (lookups against
grouped tables with distinct keys), fill 0, look the lead cost up with default
1.00, and compute the rounded total lead cost. -/
def compareRow (costTable : List (String × Rat)) (matched : Frame) (p : Cell × Nat) :
    ReportRow :=
  let lc : Rat := match p.1 with
    | Cell.str s => ((costTable.find? (fun q => q.1 == s)).map (fun q => q.2)).getD 1
    | _ => 1
  { source := p.1
    totalLeads := p.2
    deposits := formatCurrency ((leftLookup (compareDeposits matched) p.1).getD 0)
    totalUniqueSales := (leftLookup (compareUniq matched) p.1).getD 0
    leadCost := lc
    totalLeadsCost := roundTo2 ((p.2 : Rat) * lc) }

/-- Embedding of `compare.compare_bats_sales`, parameterised by the static
`lead_costs` table (modelled from the spec: a mapping from source name to lead
cost, absent entries defaulting to 1.00; the `lead_costs` module itself is not
part of the analysed sources). -/
def compare_bats_sales (costTable : List (String × Rat)) (bats matched : Frame) :
    Except String (List ReportRow) :=
  match (stripColsFrame bats).cols.find? (fun c => containsSub "source" (pyLower c)) with
  | none => Except.error "No Source column found in BATS data."
  | some srcB =>
    Except.ok (sortByB (fun a b => cellLeNaLastB a.source b.source)
      ((compareLeads bats srcB).map (compareRow costTable matched)))

/-! ## Concrete example inputs -/

/-- Empty input frame. -/
def emptyFrame : Frame := ⟨[], []⟩

/-- Lead frame with one duplicated record (dedup examples). -/
def exDedup : Frame :=
  ⟨["Phone", "Assigned To", "Source"],
   [[("Phone", Cell.str "1"), ("Assigned To", Cell.str "X"), ("Source", Cell.str "FB")],
    [("Phone", Cell.str "1"), ("Assigned To", Cell.str "X"), ("Source", Cell.str "FB")],
    [("Phone", Cell.str "2"), ("Assigned To", Cell.str "X"), ("Source", Cell.str "FB")]]⟩

/-- Sales frame with order ids: two transactions of one customer. -/
def exSales1 : Frame :=
  ⟨["Order ID", "Agent", "Name", "Deposit"],
   [[("Order ID", Cell.str "O1"), ("Agent", Cell.str "X"), ("Name", Cell.str "Al"),
     ("Deposit", Cell.str "$100")],
    [("Order ID", Cell.str "O2"), ("Agent", Cell.str "X"), ("Name", Cell.str "Al"),
     ("Deposit", Cell.str "$50")]]⟩

/-- Cleaned form of `exSales1` (deposits parsed, text normalised). -/
def exSalesClean1 : Frame :=
  ⟨["Order ID", "Agent", "Name", "Deposit"],
   [[("Order ID", Cell.str "O1"), ("Agent", Cell.str "x"), ("Name", Cell.str "al"),
     ("Deposit", Cell.num 100)],
    [("Order ID", Cell.str "O2"), ("Agent", Cell.str "x"), ("Name", Cell.str "al"),
     ("Deposit", Cell.num 50)]]⟩

/-- Lead frame with order numbers matching `exSales1`. -/
def exBats1 : Frame :=
  ⟨["Number", "Customer Name", "Assigned To", "Source"],
   [[("Number", Cell.str "O1"), ("Customer Name", Cell.str "Al"),
     ("Assigned To", Cell.str "X"), ("Source", Cell.str "FB")],
    [("Number", Cell.str "O2"), ("Customer Name", Cell.str "Al"),
     ("Assigned To", Cell.str "X"), ("Source", Cell.str "FB")]]⟩

/-- Sales frame without order ids: one transaction. -/
def exSales2 : Frame :=
  ⟨["Name", "Agent", "Deposit"],
   [[("Name", Cell.str "Al"), ("Agent", Cell.str "X"), ("Deposit", Cell.str "$100")]]⟩

/-- Cleaned form of `exSales2`. -/
def exSalesClean2 : Frame :=
  ⟨["Name", "Agent", "Deposit"],
   [[("Name", Cell.str "al"), ("Agent", Cell.str "x"), ("Deposit", Cell.num 100)]]⟩

/-- Lead frame with two distinct leads of the same customer and agent. -/
def exBats2 : Frame :=
  ⟨["Phone", "Customer Name", "Assigned To", "Source"],
   [[("Phone", Cell.str "1"), ("Customer Name", Cell.str "Al"),
     ("Assigned To", Cell.str "X"), ("Source", Cell.str "FB")],
    [("Phone", Cell.str "2"), ("Customer Name", Cell.str "Al"),
     ("Assigned To", Cell.str "X"), ("Source", Cell.str "FB")]]⟩

/-- Sales frame without order ids: two customers. -/
def exSales3 : Frame :=
  ⟨["Name", "Agent", "Deposit"],
   [[("Name", Cell.str "Alice"), ("Agent", Cell.str "X"), ("Deposit", Cell.str "$100")],
    [("Name", Cell.str "Bob"), ("Agent", Cell.str "X"), ("Deposit", Cell.str "$50")]]⟩

/-- Lead frame matching both customers of `exSales3`. -/
def exBats3 : Frame :=
  ⟨["Customer Name", "Assigned To", "Source"],
   [[("Customer Name", Cell.str "Alice"), ("Assigned To", Cell.str "X"),
     ("Source", Cell.str "FB")],
    [("Customer Name", Cell.str "Bob"), ("Assigned To", Cell.str "X"),
     ("Source", Cell.str "FB")]]⟩

/-- Matched-sales table produced by the Matcher on `exSales3`/`exBats3`. -/
def exMatched3 : Frame :=
  ⟨["Source", "Name", "Agent", "Deposit", "Order ID"],
   [[("Source", Cell.str "FB"), ("Name", Cell.str "alice"), ("Agent", Cell.str "x"),
     ("Deposit", Cell.num 100), ("Order ID", Cell.str "")],
    [("Source", Cell.str "FB"), ("Name", Cell.str "bob"), ("Agent", Cell.str "x"),
     ("Deposit", Cell.num 50), ("Order ID", Cell.str "")]]⟩

/-- Summary produced by the Matcher on `exSales3`/`exBats3`. -/
def exSummary3 : Frame :=
  ⟨["Source", "Deposits", "Total_Unique_Sales"],
   [[("Source", Cell.str "FB"), ("Deposits", Cell.num 150),
     ("Total_Unique_Sales", Cell.num 2)]]⟩

/-- Cleaned form of `exSales3`. -/
def exSalesClean3 : Frame :=
  ⟨["Name", "Agent", "Deposit"],
   [[("Name", Cell.str "alice"), ("Agent", Cell.str "x"), ("Deposit", Cell.num 100)],
    [("Name", Cell.str "bob"), ("Agent", Cell.str "x"), ("Deposit", Cell.num 50)]]⟩

/-- Sales frame whose deposit strips to a non-numeric residue. -/
def exSales4 : Frame :=
  ⟨["Name", "Agent", "Deposit"],
   [[("Name", Cell.str "Al"), ("Agent", Cell.str "X"), ("Deposit", Cell.str "$1.2.3")]]⟩

/-- Sales frame whose only deposit is negative. -/
def exSales5 : Frame :=
  ⟨["Name", "Agent", "Deposit"],
   [[("Name", Cell.str "Al"), ("Agent", Cell.str "X"), ("Deposit", Cell.str "-$5")]]⟩

/-- Cleaned form of `exSales5`: the refund row is dropped. -/
def exSalesClean5 : Frame := ⟨["Name", "Agent", "Deposit"], []⟩

/-- Lead frame with four FB leads and no other columns. -/
def exBats6 : Frame :=
  ⟨["Source"],
   [[("Source", Cell.str "FB")], [("Source", Cell.str "FB")],
    [("Source", Cell.str "FB")], [("Source", Cell.str "FB")]]⟩

/-- Sales frame whose deposit column is named like a source column. -/
def exSales7 : Frame :=
  ⟨["Order ID", "Name", "Agent", "Source Deposit"],
   [[("Order ID", Cell.str "O1"), ("Name", Cell.str "Al"), ("Agent", Cell.str "X"),
     ("Source Deposit", Cell.str "$50")]]⟩

/-- Lead frame whose source column name coincides with the deposit column name
of `exSales7`; no lead matches its sales row. -/
def exBats7 : Frame :=
  ⟨["Number", "Customer Name", "Assigned To", "Source Deposit"],
   [[("Number", Cell.str "N9"), ("Customer Name", Cell.str "Bob"),
     ("Assigned To", Cell.str "Y"), ("Source Deposit", Cell.str "FB")]]⟩

/-- Cleaned form of `exSales7`. -/
def exSalesClean7 : Frame :=
  ⟨["Order ID", "Name", "Agent", "Source Deposit"],
   [[("Order ID", Cell.str "O1"), ("Name", Cell.str "al"), ("Agent", Cell.str "x"),
     ("Source Deposit", Cell.num 50)]]⟩

/-- Sales frame whose order-id column is named like the lead assignee column
of `exBats8`. -/
def exSales8 : Frame :=
  ⟨["Assigned Order ID", "Name", "Agent", "Deposit"],
   [[("Assigned Order ID", Cell.str "O1"), ("Name", Cell.str "Al"),
     ("Agent", Cell.str "X"), ("Deposit", Cell.str "$100")]]⟩

/-- Lead frame whose assignee column is named like an order-id column; its one
lead matches the sales row of `exSales8` on both passes. -/
def exBats8 : Frame :=
  ⟨["Number", "Customer Name", "Assigned Order ID", "Source"],
   [[("Number", Cell.str "O1"), ("Customer Name", Cell.str "Al"),
     ("Assigned Order ID", Cell.str "X"), ("Source", Cell.str "FB")]]⟩

/-- Cleaned form of `exSales8`. -/
def exSalesClean8 : Frame :=
  ⟨["Assigned Order ID", "Name", "Agent", "Deposit"],
   [[("Assigned Order ID", Cell.str "O1"), ("Name", Cell.str "al"),
     ("Agent", Cell.str "x"), ("Deposit", Cell.num 100)]]⟩

/-! ## Basic lemmas -/

theorem lowerChar_lowerChar (c : Char) : lowerChar (lowerChar c) = lowerChar c := by
  unfold lowerChar
  cases h : upperLower.find? (fun p => p.1 == c) with
  | none => simp [h]
  | some p =>
    have hmem : p ∈ upperLower := List.mem_of_find?_eq_some h
    have hlow : ∀ q ∈ upperLower, upperLower.find? (fun x => x.1 == q.2) = none := by decide
    simp [h, hlow p hmem]

theorem isPySpace_lowerChar (c : Char) : isPySpace (lowerChar c) = isPySpace c := by
  unfold lowerChar
  cases h : upperLower.find? (fun p => p.1 == c) with
  | none => simp [h]
  | some p =>
    have hmem : p ∈ upperLower := List.mem_of_find?_eq_some h
    have hp := List.find?_some h
    have hc : p.1 = c := by simpa using hp
    have hsp : ∀ q ∈ upperLower, isPySpace q.2 = false ∧ isPySpace q.1 = false := by decide
    simp [h, (hsp p hmem).1, ← hc, (hsp p hmem).2]

theorem dropWhile_idem {α : Type} (p : α → Bool) (l : List α) :
    (l.dropWhile p).dropWhile p = l.dropWhile p := by
  induction l with
  | nil => rfl
  | cons a t ih =>
    by_cases h : p a
    · simp [List.dropWhile_cons, h, ih]
    · simp [List.dropWhile_cons, h]

theorem dropWhile_map {α β : Type} (f : α → β) (p : β → Bool) (l : List α) :
    (l.map f).dropWhile p = (l.dropWhile (fun a => p (f a))).map f := by
  induction l with
  | nil => rfl
  | cons a t ih =>
    by_cases h : p (f a)
    · simp [List.dropWhile_cons, h, ih]
    · simp [List.dropWhile_cons, h]

theorem stripL_map_lowerChar (l : List Char) :
    stripL (l.map lowerChar) = (stripL l).map lowerChar := by
  unfold stripL
  rw [dropWhile_map lowerChar isPySpace l]
  have h1 : (fun a => isPySpace (lowerChar a)) = isPySpace := by
    funext a; exact isPySpace_lowerChar a
  rw [h1, ← List.map_reverse, dropWhile_map lowerChar isPySpace, h1, ← List.map_reverse]

theorem dropWhile_prefix_self {α : Type} (p : α → Bool) {m x : List α}
    (hm : m.dropWhile p = m) (hx : x <+: m) : x.dropWhile p = x := by
  cases x with
  | nil => rfl
  | cons a t =>
    have hpa : p a = false := by
      rcases hx with ⟨s, hs⟩
      rcases m with _ | ⟨b, u⟩
      · exact absurd (congrArg List.length hs) (by simp)
      · have hab : a = b := by
          have h2 := congrArg List.head? hs
          simpa using h2
        rw [List.dropWhile_eq_self_iff] at hm
        have h3 := hm (by simp)
        simp at h3
        rw [hab]
        exact h3
    simp [List.dropWhile_cons, hpa]

theorem stripL_prefix_dropWhile (l : List Char) :
    stripL l <+: l.dropWhile isPySpace := by
  have h1 : (l.dropWhile isPySpace).reverse.dropWhile isPySpace
      <:+ (l.dropWhile isPySpace).reverse := List.dropWhile_suffix _
  have h2 := List.reverse_prefix.mpr h1
  rwa [List.reverse_reverse] at h2

theorem dropWhile_stripL (l : List Char) :
    (stripL l).dropWhile isPySpace = stripL l :=
  dropWhile_prefix_self isPySpace (dropWhile_idem isPySpace l) (stripL_prefix_dropWhile l)

theorem stripL_stripL (l : List Char) : stripL (stripL l) = stripL l := by
  show (((stripL l).dropWhile isPySpace).reverse.dropWhile isPySpace).reverse = stripL l
  rw [dropWhile_stripL]
  have h1 : (stripL l).reverse.dropWhile isPySpace = (stripL l).reverse := by
    have e : (stripL l).reverse = (l.dropWhile isPySpace).reverse.dropWhile isPySpace := by
      show (((l.dropWhile isPySpace).reverse.dropWhile isPySpace).reverse).reverse = _
      rw [List.reverse_reverse]
    rw [e, dropWhile_idem]
  rw [h1, List.reverse_reverse]

theorem normStr_normStr (s : String) : normStr (normStr s) = normStr s := by
  show String.mk ((stripL ((stripL s.data).map lowerChar)).map lowerChar)
      = String.mk ((stripL s.data).map lowerChar)
  rw [stripL_map_lowerChar, stripL_stripL, List.map_map]
  congr 1
  apply List.map_congr_left
  intro a _
  exact lowerChar_lowerChar a

theorem normCell_normCell (c : Cell) : normCell (normCell c) = normCell c := by
  unfold normCell pyStr
  simp [normStr_normStr]

theorem getCell_setCell_self (r : Row) (c : String) (v : Cell) :
    getCell (setCell r c v) c = v := by
  induction r with
  | nil => simp [setCell, getCell, List.find?_cons]
  | cons kv t ih =>
    rcases kv with ⟨k, w⟩
    by_cases h : (k == c) = true
    · simp [setCell, h, getCell, List.find?_cons]
    · have h' : (k == c) = false := eq_false_of_ne_true h
      simp only [setCell, h', Bool.false_eq_true, if_false]
      unfold getCell
      rw [List.find?_cons]
      simp only [h']
      exact ih

theorem setCell_setCell_same (r : Row) (c : String) (v w : Cell) :
    setCell (setCell r c v) c w = setCell r c w := by
  induction r with
  | nil => simp [setCell]
  | cons kv t ih =>
    rcases kv with ⟨k, w'⟩
    by_cases h : (k == c) = true
    · simp [setCell, h]
    · have h' : (k == c) = false := eq_false_of_ne_true h
      simp only [setCell, h', Bool.false_eq_true, if_false]
      rw [ih]

theorem dedupBy_sublist {α κ : Type} [DecidableEq κ] (key : α → κ) (l : List α) :
    (dedupBy key l).Sublist l := by
  induction l using dedupBy.induct key with
  | case1 => simp [dedupBy]
  | case2 a t ih =>
    rw [dedupBy]
    exact (ih.trans (List.filter_sublist _)).cons₂ a

theorem mem_of_mem_dedupBy {α κ : Type} [DecidableEq κ] {key : α → κ} {l : List α} {x : α}
    (h : x ∈ dedupBy key l) : x ∈ l :=
  (dedupBy_sublist key l).subset h

theorem dedupBy_pairwise {α κ : Type} [DecidableEq κ] (key : α → κ) (l : List α) :
    (dedupBy key l).Pairwise (fun a b => key a ≠ key b) := by
  induction l using dedupBy.induct key with
  | case1 => simp [dedupBy]
  | case2 a t ih =>
    rw [dedupBy]
    refine List.pairwise_cons.mpr ⟨?_, ih⟩
    intro x hx
    have hxf : x ∈ t.filter (fun y => key y != key a) := mem_of_mem_dedupBy hx
    have := List.of_mem_filter hxf
    simp at this
    exact fun he => this he.symm

theorem dedupBy_eq_self {α κ : Type} [DecidableEq κ] (key : α → κ) {l : List α}
    (h : l.Pairwise (fun a b => key a ≠ key b)) : dedupBy key l = l := by
  induction l with
  | nil => simp [dedupBy]
  | cons a t ih =>
    rw [dedupBy]
    rcases List.pairwise_cons.mp h with ⟨h1, h2⟩
    have hf : t.filter (fun x => key x != key a) = t := by
      apply List.filter_eq_self.mpr
      intro x hx
      simp
      exact fun he => (h1 x hx) he.symm
    rw [hf, ih h2]

theorem find?_filter_of_imp {α : Type} {p q : α → Bool} (l : List α)
    (h : ∀ x, p x = true → q x = true) : (l.filter q).find? p = l.find? p := by
  induction l with
  | nil => rfl
  | cons a t ih =>
    by_cases hq : q a = true
    · rw [List.filter_cons_of_pos hq, List.find?_cons, List.find?_cons]
      cases hp : p a
      · exact ih
      · rfl
    · have hp : p a = false := by
        cases hpa : p a
        · rfl
        · exact absurd (h a hpa) hq
      rw [List.filter_cons_of_neg (by simpa using hq), List.find?_cons, hp]
      exact ih

theorem dedupBy_find? {α κ : Type} [DecidableEq κ] (key : α → κ) {l : List α} {x : α}
    (h : x ∈ dedupBy key l) : l.find? (fun y => key y == key x) = some x := by
  induction l using dedupBy.induct key with
  | case1 => simp [dedupBy] at h
  | case2 a t ih =>
    rw [dedupBy] at h
    rcases List.mem_cons.mp h with h | h
    · subst h
      rw [List.find?_cons]
      simp
    · have hne : key x ≠ key a := by
        have hxf : x ∈ t.filter (fun y => key y != key a) := mem_of_mem_dedupBy h
        have := List.of_mem_filter hxf
        simpa using this
      rw [List.find?_cons]
      have hpa : (key a == key x) = false := by
        simp
        exact fun he => hne he.symm
      rw [hpa]
      have hstep := find?_filter_of_imp (p := fun y => key y == key x)
        (q := fun y => key y != key a) t (by
          intro y hy
          simp at hy ⊢
          rw [hy]
          exact hne)
      rw [← hstep]
      exact ih h

theorem exists_key_dedupBy {α κ : Type} [DecidableEq κ] (key : α → κ) {l : List α} {a : α}
    (h : a ∈ l) : ∃ b ∈ dedupBy key l, key b = key a := by
  induction l using dedupBy.induct key with
  | case1 => simp at h
  | case2 c t ih =>
    rw [dedupBy]
    rcases List.mem_cons.mp h with h | h
    · exact ⟨c, List.mem_cons_self c _, by rw [h]⟩
    · by_cases hk : key a = key c
      · exact ⟨c, List.mem_cons_self c _, hk.symm⟩
      · have hf : a ∈ t.filter (fun x => key x != key c) := by
          apply List.mem_filter.mpr
          exact ⟨h, by simpa using hk⟩
        rcases ih hf with ⟨b, hb, hkb⟩
        exact ⟨b, List.mem_cons_of_mem c hb, hkb⟩

theorem mem_dedupBy_id {α : Type} [DecidableEq α] {l : List α} {a : α} :
    a ∈ dedupBy id l ↔ a ∈ l := by
  constructor
  · exact mem_of_mem_dedupBy
  · intro h
    rcases exists_key_dedupBy id h with ⟨b, hb, he⟩
    simp at he
    exact he ▸ hb

theorem insertB_perm {α : Type} (le : α → α → Bool) (a : α) (l : List α) :
    (insertB le a l).Perm (a :: l) := by
  induction l with
  | nil => exact List.Perm.refl _
  | cons b t ih =>
    rw [insertB]
    by_cases h : le a b = true
    · rw [if_pos h]
    · rw [if_neg h]
      exact (ih.cons b).trans (List.Perm.swap a b t)

theorem sortByB_perm {α : Type} (le : α → α → Bool) (l : List α) :
    (sortByB le l).Perm l := by
  induction l with
  | nil => exact List.Perm.refl _
  | cons a t ih =>
    show (insertB le a (sortByB le t)).Perm (a :: t)
    exact (insertB_perm le a _).trans (ih.cons a)

theorem mem_sortByB {α : Type} (le : α → α → Bool) (l : List α) (a : α) :
    a ∈ sortByB le l ↔ a ∈ l :=
  (sortByB_perm le l).mem_iff

theorem nodup_sortByB {α : Type} (le : α → α → Bool) {l : List α} (h : l.Nodup) :
    (sortByB le l).Nodup :=
  ((sortByB_perm le l).nodup_iff).mpr h

theorem leftLookup_map_graph {α : Type} (ks : List Cell) (f : Cell → α) (k : Cell) :
    leftLookup (ks.map (fun x => (x, f x))) k = if k ∈ ks then some (f k) else none := by
  induction ks with
  | nil => simp [leftLookup]
  | cons a t ih =>
    by_cases h : a = k
    · subst h
      simp [leftLookup, List.find?_cons]
    · unfold leftLookup
      rw [List.map_cons, List.find?_cons]
      have hpa : ((a, f a).1 == k) = false := by simpa using h
      rw [hpa]
      rw [show ((List.find? (fun p => p.1 == k) (t.map fun x => (x, f x))).map
        (fun p => p.2)) = leftLookup (t.map fun x => (x, f x)) k from rfl, ih]
      by_cases hk : k ∈ t
      · rw [if_pos hk, if_pos (List.mem_cons_of_mem a hk)]
      · rw [if_neg hk, if_neg (fun hm => by
          rcases List.mem_cons.mp hm with he | hm2
          · exact absurd he.symm h
          · exact hk hm2)]

theorem groupAgg_eq {κ α : Type} [DecidableEq κ] (isNaK : κ → Bool) (leB : κ → κ → Bool)
    (keyOf : Row → κ) (aggF : List Row → α) (dropna : Bool) (rows : List Row) :
    groupAgg isNaK leB keyOf aggF dropna rows =
      (sortByB leB (dedupBy id
        ((if dropna then rows.filter (fun r => !(isNaK (keyOf r))) else rows).map keyOf))).map
        (fun k => (k, aggF ((if dropna then rows.filter (fun r => !(isNaK (keyOf r)))
          else rows).filter (fun r => keyOf r == k)))) := rfl

theorem mem_groupAgg {κ α : Type} [DecidableEq κ] {isNaK : κ → Bool} {leB : κ → κ → Bool}
    {keyOf : Row → κ} {aggF : List Row → α} {dropna : Bool} {rows : List Row} {p : κ × α} :
    p ∈ groupAgg isNaK leB keyOf aggF dropna rows ↔
      (p.1 ∈ ((if dropna then rows.filter (fun r => !(isNaK (keyOf r))) else rows).map keyOf)
       ∧ p.2 = aggF ((if dropna then rows.filter (fun r => !(isNaK (keyOf r)))
          else rows).filter (fun r => keyOf r == p.1))) := by
  rw [groupAgg_eq, List.mem_map]
  constructor
  · rintro ⟨k, hk, he⟩
    have h1 : k = p.1 := by rw [← he]
    subst h1
    rw [mem_sortByB, mem_dedupBy_id] at hk
    exact ⟨hk, by rw [← he]⟩
  · rintro ⟨h1, h2⟩
    refine ⟨p.1, ?_, ?_⟩
    · rw [mem_sortByB, mem_dedupBy_id]
      exact h1
    · rw [← h2]

theorem mem_mergeFrames_rows {L R : Frame} {lk rk : List String} {sl sr : String} {m : Row} :
    m ∈ (mergeFrames L R lk rk sl sr).rows ↔
      ∃ lr ∈ L.rows, ∃ rr ∈ R.rows, keysMatchB lk rk lr rr = true ∧
        m = renameOv (mergeOv L R lk rk) sl lr
          ++ renameOv (mergeOv L R lk rk) sr (dropColsRow (mergeRightDrop L lk rk) rr) := by
  show m ∈ L.rows.flatMap _ ↔ _
  rw [List.mem_flatMap]
  constructor
  · rintro ⟨lr, hl, hm⟩
    rw [List.mem_map] at hm
    rcases hm with ⟨rr, hrf, he⟩
    rw [List.mem_filter] at hrf
    exact ⟨lr, hl, rr, hrf.1, hrf.2, he.symm⟩
  · rintro ⟨lr, hl, rr, hr, hk, he⟩
    refine ⟨lr, hl, ?_⟩
    rw [List.mem_map]
    exact ⟨rr, List.mem_filter.mpr ⟨hr, hk⟩, he.symm⟩

theorem except_bind_ok {ε α β : Type} {u : α} {f : α → Except ε β} {r : Except ε β}
    (h : (Except.ok u).bind f = r) : f u = r := h

theorem except_bind_error_ne_ok {ε α β : Type} {e : ε} {f : α → Except ε β} {b : β}
    (h : (Except.error e).bind f = Except.ok b) : False := by
  have h2 : (Except.error e : Except ε β) = Except.ok b := h
  exact absurd h2 (by simp)

theorem length_mergeFrames_rows (L R : Frame) (lk rk : List String) (sl sr : String) :
    (mergeFrames L R lk rk sl sr).rows.length =
      (L.rows.map (fun lr =>
        (R.rows.filter (fun rr => keysMatchB lk rk lr rr)).length)).sum := by
  show (L.rows.flatMap _).length = _
  rw [List.length_flatMap]
  congr 1
  apply List.map_congr_left
  intro lr _
  exact List.length_map _ _

theorem renameOv_nil (suf : String) (r : Row) : renameOv [] suf r = r := by
  unfold renameOv
  have : ∀ kv : String × Cell,
      (if (([] : List String).contains kv.1) then (kv.1 ++ suf, kv.2) else kv) = kv := by
    intro kv; rfl
  rw [List.map_congr_left (fun kv _ => this kv)]
  exact List.map_id' r

/-! ## Claims C7 and C8: the Deduplicator -/

theorem clean_cols (df : Frame) : (clean_bats_duplicates df).1.cols = df.cols := rfl

theorem clean_rows (df : Frame) : (clean_bats_duplicates df).1.rows =
    (if (subsetColsOf df).isEmpty then normalizedRowsOf df
     else dedupBy (fun r => (subsetColsOf df).map (getCell r)) (normalizedRowsOf df)) := rfl

theorem clean_removed (df : Frame) : (clean_bats_duplicates df).2.1 =
    (normalizedRowsOf df).length - (clean_bats_duplicates df).1.rows.length := rfl

theorem assignedColOfB_clean (df : Frame) :
    assignedColOfB (clean_bats_duplicates df).1 = assignedColOfB df := rfl

theorem subsetColsOf_clean (df : Frame) :
    subsetColsOf (clean_bats_duplicates df).1 = subsetColsOf df := rfl

theorem normalizedRowsOf_clean (df : Frame) :
    normalizedRowsOf (clean_bats_duplicates df).1 = (clean_bats_duplicates df).1.rows := by
  unfold normalizedRowsOf
  rw [assignedColOfB_clean]
  cases hc : assignedColOfB df with
  | none => rfl
  | some c =>
    have hsub : ∀ x ∈ (clean_bats_duplicates df).1.rows, x ∈ normalizedRowsOf df := by
      intro x hx
      rw [clean_rows] at hx
      by_cases h : (subsetColsOf df).isEmpty
      · rw [if_pos h] at hx; exact hx
      · rw [if_neg h] at hx; exact mem_of_mem_dedupBy hx
    have hpt : ∀ x ∈ (clean_bats_duplicates df).1.rows,
        setCell x c (normCell (getCell x c)) = x := by
      intro x hx
      have hx0 := hsub x hx
      unfold normalizedRowsOf at hx0
      rw [hc] at hx0
      rw [List.mem_map] at hx0
      rcases hx0 with ⟨r0, _, he⟩
      subst he
      rw [getCell_setCell_self, normCell_normCell, setCell_setCell_same]
    calc (clean_bats_duplicates df).1.rows.map (fun r => setCell r c (normCell (getCell r c)))
        = (clean_bats_duplicates df).1.rows.map id := List.map_congr_left hpt
      _ = (clean_bats_duplicates df).1.rows := List.map_id _

/-- Fact C7: the Deduplicator is idempotent - re-running `clean_bats_duplicates`
on its own cleaned output removes zero additional rows. -/
theorem claim_C7_idempotent (df : Frame) :
    (clean_bats_duplicates (clean_bats_duplicates df).1).2.1 = 0 := by
  have h1 : (clean_bats_duplicates (clean_bats_duplicates df).1).1.rows
      = (clean_bats_duplicates df).1.rows := by
    rw [clean_rows ((clean_bats_duplicates df).1), subsetColsOf_clean, normalizedRowsOf_clean]
    by_cases h : (subsetColsOf df).isEmpty
    · rw [if_pos h]
    · rw [if_neg h]
      apply dedupBy_eq_self
      rw [clean_rows df, if_neg h]
      exact dedupBy_pairwise _ _
  rw [clean_removed, normalizedRowsOf_clean, h1]
  exact Nat.sub_self _

/-- Fact C8: when the phone/assignee/source dedup key fully resolves, no two
cleaned rows share the key, the cleaned rows are a subsequence of the
normalised input rows, and the retained row of each key is its first
occurrence. -/
theorem claim_C8_dedup_unique (df : Frame) (h3 : (subsetColsOf df).length = 3) :
    ((clean_bats_duplicates df).1.rows.Pairwise (fun a b =>
        (subsetColsOf df).map (getCell a) ≠ (subsetColsOf df).map (getCell b)))
    ∧ ((clean_bats_duplicates df).1.rows.Sublist (normalizedRowsOf df))
    ∧ (∀ r ∈ (clean_bats_duplicates df).1.rows,
        (normalizedRowsOf df).find? (fun y =>
          decide ((subsetColsOf df).map (getCell y) = (subsetColsOf df).map (getCell r)))
          = some r) := by
  have hne : (subsetColsOf df).isEmpty = false := by
    rcases hs : subsetColsOf df with _ | ⟨c, t⟩
    · rw [hs] at h3; simp at h3
    · rfl
  rw [clean_rows, if_neg (by simp [hne])]
  exact ⟨dedupBy_pairwise _ _, dedupBy_sublist _ _, fun r hr => dedupBy_find? _ hr⟩

/-- Fact C8 witness at a concrete duplicated lead table. -/
theorem claim_C8_witness :
    (subsetColsOf exDedup).length = 3 ∧
    (((clean_bats_duplicates exDedup).1.rows.Pairwise (fun a b =>
        (subsetColsOf exDedup).map (getCell a) ≠ (subsetColsOf exDedup).map (getCell b)))
    ∧ ((clean_bats_duplicates exDedup).1.rows.Sublist (normalizedRowsOf exDedup))
    ∧ (∀ r ∈ (clean_bats_duplicates exDedup).1.rows,
        (normalizedRowsOf exDedup).find? (fun y =>
          decide ((subsetColsOf exDedup).map (getCell y) = (subsetColsOf exDedup).map (getCell r)))
          = some r)) :=
  ⟨by with_unfolding_all decide, claim_C8_dedup_unique exDedup (by with_unfolding_all decide)⟩

/-! ## Claim C3: validation of required columns -/

/-- Fact C3: when any required role fails to resolve, `process_sales_data`
returns one error naming the full missing list, and each unresolved role
contributes its name to that list. -/
theorem claim_C3_missing_columns (sales bats : Frame) (h : missingListOf sales bats ≠ []) :
    process_sales_data sales bats = Except.error
      ("Required columns missing or not detected: "
        ++ String.intercalate ", " (missingListOf sales bats))
    ∧ (salesAgentColOf sales = none → "Sales: Agent/Agents" ∈ missingListOf sales bats)
    ∧ (batsAssignedColOf bats = none → "BATS: Assigned To" ∈ missingListOf sales bats)
    ∧ (depositColSalesOf sales = none → "Sales: Deposit" ∈ missingListOf sales bats)
    ∧ (sourceColBatsOf bats = none → "BATS: Source" ∈ missingListOf sales bats)
    ∧ ((nameColSalesOf sales = none ∨ nameColBatsOf bats = none) →
        "Name (Sales Name and BATS Customer Name)" ∈ missingListOf sales bats) := by
  refine ⟨?_, ?_, ?_, ?_, ?_, ?_⟩
  · unfold process_sales_data
    rw [if_neg h]
  · intro hr
    simp [missingListOf, hr]
  · intro hr
    simp [missingListOf, hr]
  · intro hr
    simp [missingListOf, hr]
  · intro hr
    simp [missingListOf, hr]
  · intro hr
    rcases hr with hr | hr <;> simp [missingListOf, hr]

/-- Fact C3 witness: two empty frames miss every role; the single message names
all of them. -/
theorem claim_C3_witness :
    missingListOf emptyFrame emptyFrame ≠ [] ∧
    process_sales_data emptyFrame emptyFrame = Except.error
      ("Required columns missing or not detected: Sales: Agent/Agents, BATS: Assigned To, "
        ++ "Sales: Deposit, BATS: Source, Name (Sales Name and BATS Customer Name)") :=
  ⟨by with_unfolding_all decide, by
    have h := (claim_C3_missing_columns emptyFrame emptyFrame (by with_unfolding_all decide)).1
    rw [h]
    with_unfolding_all decide⟩

/-! ## Claim C9: zero matches (amended) -/

/-- Fact C9 counterexample to the claim as stated: every required role
resolves, deposits clean without error and no row survives either pass, yet
the run fails - the leads source column name also occurs among the kept sales
columns, both merges suffix-rename it away, and the source filter's column
access raises a `KeyError` even with zero survivors. -/
theorem claim_C9_counterexample :
    missingListOf exSales7 exBats7 = []
    ∧ cleanDepositOf exSales7 = Except.ok exSalesClean7
    ∧ (combinedFilteredOf exSales7 exBats7 exSalesClean7).rows = []
    ∧ process_sales_data exSales7 exBats7 = Except.error "KeyError: Source Deposit" := by
  with_unfolding_all decide

/-- Fact C9 (amended): when validation passes, deposits clean without error,
the resolved leads source column name survives into the concatenated match
frame (the merges rename it away exactly when it collides with a kept sales
column name, and the run then fails), and nothing survives the two passes and
the source filter, the Matcher returns the empty matched table with the
canonical columns and an empty summary, without raising. -/
theorem claim_C9_amended (sales bats sf : Frame) (sc : String)
    (h1 : missingListOf sales bats = [])
    (h2 : cleanDepositOf sales = Except.ok sf)
    (hsc : sourceColBatsOf bats = some sc)
    (hkeep : (combinedOf sales bats sf).cols.contains sc = true)
    (h3 : (combinedFilteredOf sales bats sf).rows = []) :
    process_sales_data sales bats = Except.ok (emptyMatchedFrame, emptySummaryFrame)
    ∧ emptyMatchedFrame.cols = ["Order ID", "Name", "Agent", "Deposit", "Source"]
    ∧ emptyMatchedFrame.rows = [] ∧ emptySummaryFrame.rows = [] := by
  refine ⟨?_, rfl, rfl, rfl⟩
  unfold process_sales_data
  rw [if_pos h1, h2]
  show (requireCol (combinedOf sales bats sf) (sourceColBatsOf bats)).bind _
    = Except.ok (emptyMatchedFrame, emptySummaryFrame)
  rw [hsc]
  show (if (combinedOf sales bats sf).cols.contains sc = true then Except.ok ()
      else Except.error ("KeyError: " ++ sc)).bind _
    = Except.ok (emptyMatchedFrame, emptySummaryFrame)
  rw [hkeep]
  show (if (combinedFilteredOf sales bats sf).rows.isEmpty = true
      then Except.ok (emptyMatchedFrame, emptySummaryFrame)
      else _)
    = Except.ok (emptyMatchedFrame, emptySummaryFrame)
  rw [h3]
  rfl

/-- Fact C9 witness: a single refund-like sales row is dropped by the deposit
filter, the source column survives, and the run returns the canonical empty
tables. -/
theorem claim_C9_witness :
    (missingListOf exSales5 exBats3 = [] ∧ cleanDepositOf exSales5 = Except.ok exSalesClean5
      ∧ sourceColBatsOf exBats3 = some "Source"
      ∧ (combinedOf exSales5 exBats3 exSalesClean5).cols.contains "Source" = true
      ∧ (combinedFilteredOf exSales5 exBats3 exSalesClean5).rows = [])
    ∧ process_sales_data exSales5 exBats3 = Except.ok (emptyMatchedFrame, emptySummaryFrame) :=
  ⟨⟨by with_unfolding_all decide, by with_unfolding_all decide, by with_unfolding_all decide,
    by with_unfolding_all decide, by with_unfolding_all decide⟩,
   (claim_C9_amended exSales5 exBats3 exSalesClean5 "Source" (by with_unfolding_all decide)
     (by with_unfolding_all decide) (by with_unfolding_all decide)
     (by with_unfolding_all decide) (by with_unfolding_all decide)).1⟩

/-! ## Claim C2: deposit cleaning (amended) -/

/-- Unfolding of `cleanDepositOf` once the deposit column is resolved. -/
theorem cleanDepositOf_eq (sales : Frame) (dc : String)
    (hdc : depositColSalesOf sales = some dc) :
    cleanDepositOf sales = ((salesNormOf sales).rows.mapM (cleanRowDeposit dc)).map (fun rs =>
      (⟨(salesNormOf sales).cols, rs.filter (fun r =>
        match getCell r dc with
        | Cell.num q => decide (0 < q)
        | _ => false)⟩ : Frame)) := by
  unfold cleanDepositOf
  rw [hdc]

/-- Fact C2 (amended): a deposit whose stripped residue is empty becomes NaN
and is silently dropped; a non-empty residue that is not a float literal is a
hard error of the run; and every row surviving the deposit filter carries a
strictly positive numeric deposit. -/
theorem claim_C2_amended :
    (∀ s : String, stripNonNum s = [] → cleanCell (Cell.str s) = Except.ok Cell.na)
    ∧ (∀ s : String, stripNonNum s ≠ [] → validFloat (stripNonNum s) = false →
        cleanCell (Cell.str s) = Except.error
          ("could not convert string to float: " ++ String.mk (stripNonNum s)))
    ∧ (∀ (sales sf : Frame) (dc : String), cleanDepositOf sales = Except.ok sf →
        depositColSalesOf sales = some dc →
        ∀ r ∈ sf.rows, ∃ q : Rat, getCell r dc = Cell.num q ∧ 0 < q) := by
  refine ⟨?_, ?_, ?_⟩
  · intro s hs
    simp only [cleanCell]
    rw [hs]
    rfl
  · intro s hs hv
    simp only [cleanCell]
    have hne : (stripNonNum s).isEmpty = false := by
      rcases h : stripNonNum s with _ | ⟨a, t⟩
      · exact absurd h hs
      · rfl
    rw [if_neg (by simp [hne]), if_neg (by simp [hv])]
  · intro sales sf dc h2 hdc r hr
    rw [cleanDepositOf_eq sales dc hdc] at h2
    cases hm : (salesNormOf sales).rows.mapM (cleanRowDeposit dc) with
    | error e =>
      rw [hm] at h2
      simp [Except.map] at h2
    | ok rs =>
      rw [hm] at h2
      simp only [Except.map, Except.ok.injEq] at h2
      subst h2
      have hp := List.of_mem_filter hr
      rcases hg : getCell r dc with _ | s | q
      · rw [hg] at hp; simp at hp
      · rw [hg] at hp; simp at hp
      · rw [hg] at hp
        simp at hp
        exact ⟨q, rfl, hp⟩

/-- Fact C2 counterexample to the claim as stated: the deposit `"$1.2.3"`
cannot be parsed to a number, yet the run fails hard instead of silently
dropping the row. -/
theorem claim_C2_counterexample :
    process_sales_data exSales4 exBats3 =
      Except.error "could not convert string to float: 1.2.3" := by
  with_unfolding_all decide

/-- Fact C2 witness: an empty residue is dropped silently, a malformed residue
errors, and cleaned rows carry positive deposits. -/
theorem claim_C2_witness :
    (stripNonNum "abc" = [] ∧ cleanCell (Cell.str "abc") = Except.ok Cell.na)
    ∧ (stripNonNum "$1.2.3" ≠ [] ∧ validFloat (stripNonNum "$1.2.3") = false
       ∧ cleanCell (Cell.str "$1.2.3") = Except.error
           ("could not convert string to float: " ++ String.mk (stripNonNum "$1.2.3")))
    ∧ (cleanDepositOf exSales1 = Except.ok exSalesClean1
       ∧ ∃ q : Rat, getCell [("Order ID", Cell.str "O1"), ("Agent", Cell.str "x"),
           ("Name", Cell.str "al"), ("Deposit", Cell.num 100)] "Deposit" = Cell.num q ∧ 0 < q) :=
  ⟨⟨by with_unfolding_all decide, claim_C2_amended.1 "abc" (by with_unfolding_all decide)⟩,
   ⟨by with_unfolding_all decide, by with_unfolding_all decide,
    claim_C2_amended.2.1 "$1.2.3" (by with_unfolding_all decide) (by with_unfolding_all decide)⟩,
   ⟨by with_unfolding_all decide,
    claim_C2_amended.2.2 exSales1 exSalesClean1 "Deposit" (by with_unfolding_all decide)
      (by with_unfolding_all decide)
      [("Order ID", Cell.str "O1"), ("Agent", Cell.str "x"),
       ("Name", Cell.str "al"), ("Deposit", Cell.num 100)] (by with_unfolding_all decide)⟩⟩

/-! ## Claims C1 and C10: the two matching passes -/

/-- Unfolding of `preAggOf` once every sales role is resolved. -/
theorem preAggOf_eq (sales sf : Frame) (oc ac nc dc : String)
    (hoc : orderIdColSalesOf sales = some oc) (hac : salesAgentColOf sales = some ac)
    (hnc : nameColSalesOf sales = some nc) (hdc : depositColSalesOf sales = some dc) :
    preAggOf sales sf = ⟨[oc, ac, nc, dc],
      (groupAgg key3Na key3LeB (key3Of oc ac nc) (sumDepositCells dc) true sf.rows).map
        (fun ka => [(oc, ka.1.1), (ac, ka.1.2.1), (nc, ka.1.2.2), (dc, Cell.num ka.2)])⟩ := by
  unfold preAggOf
  rw [hoc, hac, hnc, hdc]

/-- Unfolding of `salesMinOf` once every sales role is resolved. -/
theorem salesMinOf_eq (sales sf : Frame) (oc ac nc dc : String)
    (hoc : orderIdColSalesOf sales = some oc) (hac : salesAgentColOf sales = some ac)
    (hnc : nameColSalesOf sales = some nc) (hdc : depositColSalesOf sales = some dc) :
    salesMinOf sales sf = selectCols
      ⟨[oc, ac, nc, dc],
       (groupAgg key3Na key3LeB (key3Of oc ac nc) (sumDepositCells dc) true sf.rows).map
         (fun ka => [(oc, ka.1.1), (ac, ka.1.2.1), (nc, ka.1.2.2), (dc, Cell.num ka.2)])⟩
      [oc, nc, ac, dc] := by
  unfold salesMinOf salesKeepOf
  rw [preAggOf_eq sales sf oc ac nc dc hoc hac hnc hdc, hoc, hac, hnc, hdc]
  congr 1

/-- Unfolding of `firstPassOf` once both order-id roles (and the join roles)
are resolved. -/
theorem firstPassOf_eq (sales bats sf : Frame) (oc ob ac bc : String)
    (hoc : orderIdColSalesOf sales = some oc) (hob : orderIdColBatsOf bats = some ob)
    (hac : salesAgentColOf sales = some ac) (hbc : batsAssignedColOf bats = some bc) :
    firstPassOf sales bats sf =
      mergeFrames (salesMinOf sales sf) (batsMinOf bats) [oc, ac] [ob, bc]
        "_sales" "_bats" := by
  unfold firstPassOf
  rw [hoc, hob, hac, hbc]

/-- Unfolding of `secondPassOf` once the name and agent roles are resolved. -/
theorem secondPassOf_eq (sales bats sf : Frame) (nc nb ac bc : String)
    (hnc : nameColSalesOf sales = some nc) (hnb : nameColBatsOf bats = some nb)
    (hac : salesAgentColOf sales = some ac) (hbc : batsAssignedColOf bats = some bc) :
    secondPassOf sales bats sf =
      mergeFrames ⟨(salesMinOf sales sf).cols, unmatchedOf sales bats sf⟩ (batsMinOf bats)
        [nc, ac] [nb, bc] "_sales" "_bats" := by
  unfold secondPassOf
  rw [hnc, hnb, hac, hbc]

/-- Every row of the pre-aggregated minimal sales table carries a non-missing
order id as its first entry (the group-by dropped missing keys). -/
theorem salesMin_find_oc (sales sf : Frame) (oc ac nc dc : String)
    (hoc : orderIdColSalesOf sales = some oc) (hac : salesAgentColOf sales = some ac)
    (hnc : nameColSalesOf sales = some nc) (hdc : depositColSalesOf sales = some dc) :
    ∀ s ∈ (salesMinOf sales sf).rows,
      ∃ k1, k1 ≠ Cell.na ∧ s.find? (fun kv => kv.1 == oc) = some (oc, k1) := by
  intro s hs
  rw [salesMinOf_eq sales sf oc ac nc dc hoc hac hnc hdc] at hs
  simp only [selectCols, List.mem_map] at hs
  rcases hs with ⟨r0, hr0, hse⟩
  rcases hr0 with ⟨ka, hka, hre⟩
  subst hre
  subst hse
  have hna : key3Na ka.1 = false := by
    rcases mem_groupAgg.mp hka with ⟨hk1, _⟩
    rw [List.mem_map] at hk1
    rcases hk1 with ⟨r, hrf, hke⟩
    rw [if_pos rfl] at hrf
    have := (List.mem_filter.mp hrf).2
    rw [← hke]
    simpa using this
  have hk1 : ka.1.1 ≠ Cell.na := by
    unfold key3Na at hna
    simp at hna
    exact hna.1.1
  refine ⟨ka.1.1, hk1, ?_⟩
  have himp : ∀ kv : String × Cell, (kv.1 == oc) = true →
      ((([oc, ac, nc, dc].filter
        (fun c => (([oc, nc, ac, dc] : List String)).contains c)).contains kv.1) = true) := by
    intro kv hkv
    have he : kv.1 = oc := by simpa using hkv
    rw [he]
    apply List.elem_eq_true_of_mem
    apply List.mem_filter.mpr
    exact ⟨by simp, List.elem_eq_true_of_mem (by simp)⟩
  rw [find?_filter_of_imp _ himp, List.find?_cons]
  simp

/-- The order-id column name survives into the minimal sales columns. -/
theorem salesMin_cols_oc (sales sf : Frame) (oc ac nc dc : String)
    (hoc : orderIdColSalesOf sales = some oc) (hac : salesAgentColOf sales = some ac)
    (hnc : nameColSalesOf sales = some nc) (hdc : depositColSalesOf sales = some dc) :
    oc ∈ (salesMinOf sales sf).cols := by
  rw [salesMinOf_eq sales sf oc ac nc dc hoc hac hnc hdc]
  simp only [selectCols]
  apply List.mem_filter.mpr
  exact ⟨by simp, List.elem_eq_true_of_mem (by simp)⟩

/-- Shape of a minimal sales row when every sales role resolves: exactly the
four kept entries, the non-missing order id first. -/
theorem salesMin_rows_shape (sales sf : Frame) (oc ac nc dc : String)
    (hoc : orderIdColSalesOf sales = some oc) (hac : salesAgentColOf sales = some ac)
    (hnc : nameColSalesOf sales = some nc) (hdc : depositColSalesOf sales = some dc) :
    ∀ s ∈ (salesMinOf sales sf).rows, ∃ k1 k2 k3 d,
      s = [(oc, k1), (ac, k2), (nc, k3), (dc, Cell.num d)] ∧ k1 ≠ Cell.na := by
  intro s hs
  rw [salesMinOf_eq sales sf oc ac nc dc hoc hac hnc hdc] at hs
  simp only [selectCols, List.mem_map] at hs
  rcases hs with ⟨r0, hr0, hse⟩
  rcases hr0 with ⟨ka, hka, hre⟩
  subst hre
  subst hse
  have hna : key3Na ka.1 = false := by
    rcases mem_groupAgg.mp hka with ⟨hk1, _⟩
    rw [List.mem_map] at hk1
    rcases hk1 with ⟨r, hrf, hke⟩
    rw [if_pos rfl] at hrf
    have := (List.mem_filter.mp hrf).2
    rw [← hke]
    simpa using this
  have hk1 : ka.1.1 ≠ Cell.na := by
    unfold key3Na at hna
    simp at hna
    exact hna.1.1
  refine ⟨ka.1.1, ka.1.2.1, ka.1.2.2, ka.2, ?_, hk1⟩
  apply List.filter_eq_self.mpr
  intro kv hkv
  apply List.elem_eq_true_of_mem
  apply List.mem_filter.mpr
  simp only [List.mem_cons, List.not_mem_nil, or_false] at hkv
  rcases hkv with h | h | h | h <;> subst h <;>
    exact ⟨by simp, List.elem_eq_true_of_mem (by simp)⟩

/-- A cell read of a merged row at an unsuffixed head column. -/
theorem getCell_rename_head (ov : List String) (suf : String) (c : String) (v : Cell)
    (rest : Row) (tail : Row) (hc : ov.contains c = false) :
    getCell (renameOv ov suf ((c, v) :: rest) ++ tail) c = v := by
  show getCell ((if ov.contains c = true then (c ++ suf, v) else (c, v))
    :: (renameOv ov suf rest ++ tail)) c = v
  rw [hc]
  show getCell ((c, v) :: (renameOv ov suf rest ++ tail)) c = v
  unfold getCell
  rw [List.find?_cons_of_pos _ (by simp)]

/-- Fact C1 counterexample to the claim as stated: with the sales order-id
column named like the leads assignee column, the pass-1 merge suffix-renames
it, the matched-ids exclusion is skipped, and the pass-1-matched sales row
re-enters pass 2 - the run completing normally with its deposit counted
twice. -/
theorem claim_C1_counterexample :
    missingListOf exSales8 exBats8 = []
    ∧ cleanDepositOf exSales8 = Except.ok exSalesClean8
    ∧ [("Assigned Order ID", Cell.str "O1"), ("Agent", Cell.str "x"),
       ("Name", Cell.str "al"), ("Deposit", Cell.num 100)]
        ∈ (salesMinOf exSales8 exSalesClean8).rows
    ∧ [("Number", Cell.str "O1"), ("Customer Name", Cell.str "al"),
       ("Assigned Order ID", Cell.str "x"), ("Source", Cell.str "FB")]
        ∈ (batsMinOf exBats8).rows
    ∧ keysMatchB ["Assigned Order ID", "Agent"] ["Number", "Assigned Order ID"]
        [("Assigned Order ID", Cell.str "O1"), ("Agent", Cell.str "x"),
         ("Name", Cell.str "al"), ("Deposit", Cell.num 100)]
        [("Number", Cell.str "O1"), ("Customer Name", Cell.str "al"),
         ("Assigned Order ID", Cell.str "x"), ("Source", Cell.str "FB")] = true
    ∧ (firstPassOf exSales8 exBats8 exSalesClean8).rows ≠ []
    ∧ [("Assigned Order ID", Cell.str "O1"), ("Agent", Cell.str "x"),
       ("Name", Cell.str "al"), ("Deposit", Cell.num 100)]
        ∈ unmatchedOf exSales8 exBats8 exSalesClean8
    ∧ process_sales_data exSales8 exBats8 = Except.ok
        (⟨["Source", "Name", "Agent", "Deposit", "Order ID"],
          [[("Source", Cell.str "FB"), ("Name", Cell.str "al"), ("Agent", Cell.str "x"),
            ("Deposit", Cell.num 200), ("Order ID", Cell.str "")]]⟩,
         ⟨["Source", "Deposits", "Total_Unique_Sales"],
          [[("Source", Cell.str "FB"), ("Deposits", Cell.num 200),
            ("Total_Unique_Sales", Cell.num 1)]]⟩) := by
  with_unfolding_all decide

/-- Fact C1 (amended): when the sales order-id column name is not among the
kept leads matching columns, a sales row that joined to some lead in pass 1 on
(order id, agent) is excluded from the pass-2 input; and every minimal sales
row - pass-1-matched ones included - is passed to pass 2 when an order-id
column is unavailable on either side, when pass 1 matches nothing, or when the
pass-1 merge suffix-renamed the sales order-id column away. -/
theorem claim_C1_amended (sales bats sf : Frame) :
    (∀ oc ob ac bc nc dc,
      orderIdColSalesOf sales = some oc → orderIdColBatsOf bats = some ob →
      salesAgentColOf sales = some ac → batsAssignedColOf bats = some bc →
      nameColSalesOf sales = some nc → depositColSalesOf sales = some dc →
      oc ∉ (batsMinOf bats).cols →
      ∀ s ∈ (salesMinOf sales sf).rows,
        (∃ b ∈ (batsMinOf bats).rows, keysMatchB [oc, ac] [ob, bc] s b = true) →
        s ∉ unmatchedOf sales bats sf)
    ∧ ((orderIdColSalesOf sales = none ∨ orderIdColBatsOf bats = none) →
        unmatchedOf sales bats sf = (salesMinOf sales sf).rows)
    ∧ ((firstPassOf sales bats sf).rows = [] →
        unmatchedOf sales bats sf = (salesMinOf sales sf).rows)
    ∧ (∀ oc, orderIdColSalesOf sales = some oc →
        (firstPassOf sales bats sf).cols.contains oc = false →
        unmatchedOf sales bats sf = (salesMinOf sales sf).rows) := by
  refine ⟨?_, ?_, ?_, ?_⟩
  · intro oc ob ac bc nc dc hoc hob hac hbc hnc hdc hocb s hs hmatch
    rcases hmatch with ⟨b, hb, hkm⟩
    have hfp := firstPassOf_eq sales bats sf oc ob ac bc hoc hob hac hbc
    rcases salesMin_rows_shape sales sf oc ac nc dc hoc hac hnc hdc s hs
      with ⟨k1, k2, k3, d, hse, hk1⟩
    subst hse
    have hov : (mergeOv (salesMinOf sales sf) (batsMinOf bats) [oc, ac] [ob, bc]).contains oc
        = false := by
      cases hcon : (mergeOv (salesMinOf sales sf) (batsMinOf bats)
          [oc, ac] [ob, bc]).contains oc with
      | false => rfl
      | true =>
        exfalso
        have h1 := List.mem_of_elem_eq_true hcon
        unfold mergeOv at h1
        have h2 := (List.mem_filter.mp h1).2
        have h3 := List.mem_of_elem_eq_true h2
        unfold mergeRightCols at h3
        exact hocb (List.mem_filter.mp h3).1
    have hm : (renameOv (mergeOv (salesMinOf sales sf) (batsMinOf bats) [oc, ac] [ob, bc])
          "_sales" [(oc, k1), (ac, k2), (nc, k3), (dc, Cell.num d)]
        ++ renameOv (mergeOv (salesMinOf sales sf) (batsMinOf bats) [oc, ac] [ob, bc])
          "_bats" (dropColsRow (mergeRightDrop (salesMinOf sales sf) [oc, ac] [ob, bc]) b))
        ∈ (firstPassOf sales bats sf).rows := by
      rw [hfp, mem_mergeFrames_rows]
      exact ⟨[(oc, k1), (ac, k2), (nc, k3), (dc, Cell.num d)], hs, b, hb, hkm, rfl⟩
    have hgm : getCell (renameOv (mergeOv (salesMinOf sales sf) (batsMinOf bats)
          [oc, ac] [ob, bc]) "_sales" [(oc, k1), (ac, k2), (nc, k3), (dc, Cell.num d)]
        ++ renameOv (mergeOv (salesMinOf sales sf) (batsMinOf bats) [oc, ac] [ob, bc])
          "_bats" (dropColsRow (mergeRightDrop (salesMinOf sales sf) [oc, ac] [ob, bc]) b))
        oc = k1 := getCell_rename_head _ _ oc k1 _ _ hov
    have hmid : pyStr k1 ∈ matchedIdsOf sales bats sf := by
      unfold matchedIdsOf
      rw [hoc]
      apply List.mem_filterMap.mpr
      refine ⟨_, hm, ?_⟩
      rw [hgm]
      cases k1 with
      | na => exact absurd rfl hk1
      | str v => rfl
      | num v => rfl
    have hne : (salesMinOf sales sf).rows.isEmpty = false := by
      cases hr : (salesMinOf sales sf).rows with
      | nil =>
        rw [hr] at hs
        exact absurd hs (by simp)
      | cons a l => rfl
    have hld : mergeLeftDrop (salesMinOf sales sf) [oc, ac] [ob, bc] = [] := by
      unfold mergeLeftDrop
      rw [hne]
      rfl
    have hlcols : oc ∈ mergeLeftCols (salesMinOf sales sf) [oc, ac] [ob, bc] := by
      unfold mergeLeftCols
      apply List.mem_filter.mpr
      refine ⟨salesMin_cols_oc sales sf oc ac nc dc hoc hac hnc hdc, ?_⟩
      rw [hld]
      rfl
    have hocs : oc ∈ (firstPassOf sales bats sf).cols := by
      rw [hfp]
      show oc ∈ _ ++ _
      apply List.mem_append.mpr
      left
      apply List.mem_map.mpr
      refine ⟨oc, hlcols, ?_⟩
      rw [hov]
      rfl
    have hgs : getCell [(oc, k1), (ac, k2), (nc, k3), (dc, Cell.num d)] oc = k1 := by
      unfold getCell
      rw [List.find?_cons_of_pos _ (by simp)]
    unfold unmatchedOf
    rw [if_neg (by simp [List.ne_nil_of_mem hm]), hoc]
    show _ ∉ (if (firstPassOf sales bats sf).cols.contains oc = true
       then (salesMinOf sales sf).rows.filter
         (fun r => !((matchedIdsOf sales bats sf).contains (pyStr (getCell r oc))))
       else (salesMinOf sales sf).rows)
    rw [if_pos (List.elem_eq_true_of_mem hocs)]
    intro hmem
    have hpred := (List.mem_filter.mp hmem).2
    rw [hgs] at hpred
    have hc : ((matchedIdsOf sales bats sf).contains (pyStr k1)) = true :=
      List.elem_eq_true_of_mem hmid
    rw [hc] at hpred
    simp at hpred
  · intro hoc'
    have hfp0 : (firstPassOf sales bats sf).rows = [] := by
      unfold firstPassOf
      rcases hoc' with h | h
      · rw [h]
      · cases h2 : orderIdColSalesOf sales with
        | none => rfl
        | some oc0 => rw [h]
    unfold unmatchedOf
    rw [if_pos (by simp [hfp0])]
  · intro hfp0
    unfold unmatchedOf
    rw [if_pos (by simp [hfp0])]
  · intro oc hoc hcols
    unfold unmatchedOf
    by_cases hfe : (firstPassOf sales bats sf).rows.isEmpty = true
    · rw [if_pos hfe]
    · rw [if_neg hfe, hoc]
      show (if (firstPassOf sales bats sf).cols.contains oc = true
          then (salesMinOf sales sf).rows.filter
            (fun r => !((matchedIdsOf sales bats sf).contains (pyStr (getCell r oc))))
          else (salesMinOf sales sf).rows) = (salesMinOf sales sf).rows
      rw [hcols]
      rfl

/-- Fact C10: the pass-2 inner join yields one matched row per
(sales row, agreeing lead) pair - a sales row agreeing with k leads on
(customer name, agent) appears k times - and in the concrete run below one
sales deposit of 100 is matched by two deduplicated leads of the same source,
so the grouped matched table carries a deposit of 200. -/
theorem claim_C10_multiplicity :
    (∀ (sales bats sf : Frame) (nc nb ac bc : String),
      nameColSalesOf sales = some nc → nameColBatsOf bats = some nb →
      salesAgentColOf sales = some ac → batsAssignedColOf bats = some bc →
      (secondPassOf sales bats sf).rows.length =
        ((unmatchedOf sales bats sf).map (fun s =>
          ((batsMinOf bats).rows.filter (fun b =>
            keysMatchB [nc, ac] [nb, bc] s b)).length)).sum)
    ∧ process_sales_data exSales2 exBats2 = Except.ok
        (⟨["Source", "Name", "Agent", "Deposit", "Order ID"],
          [[("Source", Cell.str "FB"), ("Name", Cell.str "al"), ("Agent", Cell.str "x"),
            ("Deposit", Cell.num 200), ("Order ID", Cell.str "")]]⟩,
         ⟨["Source", "Deposits", "Total_Unique_Sales"],
          [[("Source", Cell.str "FB"), ("Deposits", Cell.num 200),
            ("Total_Unique_Sales", Cell.num 1)]]⟩) := by
  constructor
  · intro sales bats sf nc nb ac bc hnc hnb hac hbc
    rw [secondPassOf_eq sales bats sf nc nb ac bc hnc hnb hac hbc]
    exact length_mergeFrames_rows
      ⟨(salesMinOf sales sf).cols, unmatchedOf sales bats sf⟩ (batsMinOf bats)
      [nc, ac] [nb, bc] "_sales" "_bats"
  · with_unfolding_all decide

/-- Fact C10 witness: the multiplicity law evaluated on the concrete run with
two agreeing leads. -/
theorem claim_C10_witness :
    (secondPassOf exSales2 exBats2 exSalesClean2).rows.length =
      ((unmatchedOf exSales2 exBats2 exSalesClean2).map (fun s =>
        ((batsMinOf exBats2).rows.filter (fun b =>
          keysMatchB ["Name", "Agent"] ["Customer Name", "Assigned To"] s b)).length)).sum :=
  claim_C10_multiplicity.1 exSales2 exBats2 exSalesClean2 "Name" "Customer Name" "Agent"
    "Assigned To" (by with_unfolding_all decide) (by with_unfolding_all decide)
    (by with_unfolding_all decide) (by with_unfolding_all decide)

/-- Fact C1 witness: the pass-1-matched row of a concrete run is excluded from
pass 2; without order-id columns every minimal sales row is passed on; and
with the order-id column suffix-renamed away every minimal sales row is passed
on. -/
theorem claim_C1_witness :
    ([("Order ID", Cell.str "O1"), ("Agent", Cell.str "x"), ("Name", Cell.str "al"),
      ("Deposit", Cell.num 100)] ∉ unmatchedOf exSales1 exBats1 exSalesClean1)
    ∧ unmatchedOf exSales2 exBats2 exSalesClean2 = (salesMinOf exSales2 exSalesClean2).rows
    ∧ unmatchedOf exSales8 exBats8 exSalesClean8 = (salesMinOf exSales8 exSalesClean8).rows :=
  ⟨(claim_C1_amended exSales1 exBats1 exSalesClean1).1 "Order ID" "Number"
      "Agent" "Assigned To" "Name" "Deposit"
      (by with_unfolding_all decide) (by with_unfolding_all decide)
      (by with_unfolding_all decide) (by with_unfolding_all decide)
      (by with_unfolding_all decide) (by with_unfolding_all decide)
      (by with_unfolding_all decide)
      [("Order ID", Cell.str "O1"), ("Agent", Cell.str "x"), ("Name", Cell.str "al"),
       ("Deposit", Cell.num 100)]
      (by with_unfolding_all decide)
      ⟨[("Number", Cell.str "O1"), ("Customer Name", Cell.str "al"),
        ("Assigned To", Cell.str "x"), ("Source", Cell.str "FB")],
       by with_unfolding_all decide, by with_unfolding_all decide⟩,
   (claim_C1_amended exSales2 exBats2 exSalesClean2).2.1
     (Or.inl (by with_unfolding_all decide)),
   (claim_C1_amended exSales8 exBats8 exSalesClean8).2.2.2 "Assigned Order ID"
     (by with_unfolding_all decide) (by with_unfolding_all decide)⟩

/-! ## Claim C4: grouping of the matched table -/

/-- Cell reads of a built matched-table row. -/
theorem getCell_outRow (k0 k1 k2 : Cell) (d : Rat) (j : String) :
    getCell [("Source", k0), ("Name", k1), ("Agent", k2), ("Deposit", Cell.num d),
      ("Order ID", Cell.str j)] "Source" = k0
    ∧ getCell [("Source", k0), ("Name", k1), ("Agent", k2), ("Deposit", Cell.num d),
      ("Order ID", Cell.str j)] "Deposit" = Cell.num d
    ∧ getCell [("Source", k0), ("Name", k1), ("Agent", k2), ("Deposit", Cell.num d),
      ("Order ID", Cell.str j)] "Order ID" = Cell.str j :=
  ⟨rfl, rfl, rfl⟩

/-- Specification of the rows of the grouped matched table: each row's deposit
is the sum over its `(Source, Name, Agent)` group of pre-grouping rows, and its
order-id display string joins the sorted distinct ids of that group. -/
theorem outOf_rows_spec (sales bats sf : Frame) :
    ∀ r ∈ (outOf sales bats sf).rows,
      getCell r "Deposit" = Cell.num (sumDepositCells "Deposit"
        ((outPreOf sales bats sf).rows.filter (fun p =>
          getCell p "Source" == getCell r "Source" &&
          (getCell p "Name" == getCell r "Name" && getCell p "Agent" == getCell r "Agent"))))
      ∧ getCell r "Order ID" = Cell.str (orderIdsJoin
        ((outPreOf sales bats sf).rows.filter (fun p =>
          getCell p "Source" == getCell r "Source" &&
          (getCell p "Name" == getCell r "Name" && getCell p "Agent" == getCell r "Agent")))) := by
  intro r hr
  have hr' : r ∈ (groupAgg key3Na key3LeB (key3Of "Source" "Name" "Agent")
      (fun g => (sumDepositCells "Deposit" g, orderIdsJoin g)) true
      (outPreOf sales bats sf).rows).map (fun ka =>
        [("Source", ka.1.1), ("Name", ka.1.2.1), ("Agent", ka.1.2.2),
         ("Deposit", Cell.num ka.2.1), ("Order ID", Cell.str ka.2.2)]) := hr
  rw [List.mem_map] at hr'
  rcases hr' with ⟨ka, hka, hre⟩
  rcases ka with ⟨⟨k0, k1, k2⟩, d, j⟩
  subst hre
  rcases mem_groupAgg.mp hka with ⟨hk1, hk2⟩
  rw [if_pos rfl] at hk1 hk2
  have hna : key3Na (k0, k1, k2) = false := by
    rw [List.mem_map] at hk1
    rcases hk1 with ⟨p, hpf, hpe⟩
    have h5 := (List.mem_filter.mp hpf).2
    rw [hpe] at h5
    simpa using h5
  have hG : ((outPreOf sales bats sf).rows.filter
        (fun p => !(key3Na (key3Of "Source" "Name" "Agent" p)))).filter
        (fun p => @BEq.beq (Cell × Cell × Cell) instBEqOfDecidableEq
          (key3Of "Source" "Name" "Agent" p) (k0, k1, k2))
      = (outPreOf sales bats sf).rows.filter (fun p =>
          getCell p "Source" == k0 && (getCell p "Name" == k1 && getCell p "Agent" == k2)) := by
    rw [List.filter_filter]
    apply List.filter_congr
    intro p _
    by_cases he : key3Of "Source" "Name" "Agent" p = (k0, k1, k2)
    · have he' : getCell p "Source" = k0 ∧ getCell p "Name" = k1 ∧ getCell p "Agent" = k2 := by
        simpa [key3Of, Prod.ext_iff] using he
      have h1 : (@BEq.beq (Cell × Cell × Cell) instBEqOfDecidableEq
          (key3Of "Source" "Name" "Agent" p) (k0, k1, k2)) = true := by
        simp [instBEqOfDecidableEq]
        exact he
      rw [h1]
      simp [key3Of, he'.1, he'.2.1, he'.2.2, hna]
    · have h1 : (@BEq.beq (Cell × Cell × Cell) instBEqOfDecidableEq
          (key3Of "Source" "Name" "Agent" p) (k0, k1, k2)) = false := by
        simp [instBEqOfDecidableEq]
        exact he
      rw [h1]
      simp only [Bool.false_and]
      cases hq : (getCell p "Source" == k0 && (getCell p "Name" == k1 && getCell p "Agent" == k2))
      · rfl
      · exfalso
        simp at hq
        exact he (by unfold key3Of; rw [hq.1, hq.2.1, hq.2.2])
  have hk2b : (d, j) = (sumDepositCells "Deposit"
      (((outPreOf sales bats sf).rows.filter
        (fun p => !(key3Na (key3Of "Source" "Name" "Agent" p)))).filter
        (fun p => @BEq.beq (Cell × Cell × Cell) instBEqOfDecidableEq
          (key3Of "Source" "Name" "Agent" p) (k0, k1, k2))),
      orderIdsJoin
      (((outPreOf sales bats sf).rows.filter
        (fun p => !(key3Na (key3Of "Source" "Name" "Agent" p)))).filter
        (fun p => @BEq.beq (Cell × Cell × Cell) instBEqOfDecidableEq
          (key3Of "Source" "Name" "Agent" p) (k0, k1, k2)))) := hk2
  rw [hG] at hk2b
  have hd : d = sumDepositCells "Deposit" ((outPreOf sales bats sf).rows.filter (fun p =>
      getCell p "Source" == k0 && (getCell p "Name" == k1 && getCell p "Agent" == k2))) :=
    congrArg Prod.fst hk2b
  have hj : j = orderIdsJoin ((outPreOf sales bats sf).rows.filter (fun p =>
      getCell p "Source" == k0 && (getCell p "Name" == k1 && getCell p "Agent" == k2))) :=
    congrArg Prod.snd hk2b
  constructor
  · show Cell.num d = Cell.num (sumDepositCells "Deposit"
      ((outPreOf sales bats sf).rows.filter (fun p =>
        getCell p "Source" == k0 && (getCell p "Name" == k1 && getCell p "Agent" == k2))))
    rw [← hd]
  · show Cell.str j = Cell.str (orderIdsJoin
      ((outPreOf sales bats sf).rows.filter (fun p =>
        getCell p "Source" == k0 && (getCell p "Name" == k1 && getCell p "Agent" == k2))))
    rw [← hj]

/-- Inversion of a successful Matcher run: when validation passed and deposits
cleaned, every column access succeeded and the returned pair is either the
canonical empty tables (nothing survived the source filter) or the grouped
matched table with its summary. -/
theorem process_ok_inv (sales bats : Frame) {sf out sm : Frame}
    (h1 : missingListOf sales bats = [])
    (h2 : cleanDepositOf sales = Except.ok sf)
    (h3 : process_sales_data sales bats = Except.ok (out, sm)) :
    (out = emptyMatchedFrame ∧ sm = emptySummaryFrame)
    ∨ (out = outOf sales bats sf ∧ sm = summaryOf sales bats sf) := by
  unfold process_sales_data at h3
  rw [if_pos h1, h2] at h3
  have h4 : (requireCol (combinedOf sales bats sf) (sourceColBatsOf bats)).bind (fun _ =>
      if (combinedFilteredOf sales bats sf).rows.isEmpty = true then
        Except.ok (emptyMatchedFrame, emptySummaryFrame)
      else
        (requireCol (combinedOf sales bats sf) (nameColSalesOf sales)).bind (fun _ =>
          (requireCol (combinedOf sales bats sf) (salesAgentColOf sales)).bind (fun _ =>
            (requireCol (combinedOf sales bats sf) (depositColSalesOf sales)).bind (fun _ =>
              Except.ok (outOf sales bats sf, summaryOf sales bats sf)))))
      = Except.ok (out, sm) := h3
  cases hq1 : requireCol (combinedOf sales bats sf) (sourceColBatsOf bats) with
  | error e =>
    rw [hq1] at h4
    exact (except_bind_error_ne_ok h4).elim
  | ok u =>
    rw [hq1] at h4
    have h5 : (if (combinedFilteredOf sales bats sf).rows.isEmpty = true then
        Except.ok (emptyMatchedFrame, emptySummaryFrame)
      else
        (requireCol (combinedOf sales bats sf) (nameColSalesOf sales)).bind (fun _ =>
          (requireCol (combinedOf sales bats sf) (salesAgentColOf sales)).bind (fun _ =>
            (requireCol (combinedOf sales bats sf) (depositColSalesOf sales)).bind (fun _ =>
              Except.ok (outOf sales bats sf, summaryOf sales bats sf)))))
        = Except.ok (out, sm) := h4
    by_cases hempty : (combinedFilteredOf sales bats sf).rows.isEmpty = true
    · rw [if_pos hempty] at h5
      have he := Except.ok.inj h5
      exact Or.inl ⟨(congrArg Prod.fst he).symm, (congrArg Prod.snd he).symm⟩
    · rw [if_neg hempty] at h5
      cases hq2 : requireCol (combinedOf sales bats sf) (nameColSalesOf sales) with
      | error e =>
        rw [hq2] at h5
        exact (except_bind_error_ne_ok h5).elim
      | ok u2 =>
        rw [hq2] at h5
        have h6 : (requireCol (combinedOf sales bats sf) (salesAgentColOf sales)).bind (fun _ =>
            (requireCol (combinedOf sales bats sf) (depositColSalesOf sales)).bind (fun _ =>
              Except.ok (outOf sales bats sf, summaryOf sales bats sf)))
            = Except.ok (out, sm) := h5
        cases hq3 : requireCol (combinedOf sales bats sf) (salesAgentColOf sales) with
        | error e =>
          rw [hq3] at h6
          exact (except_bind_error_ne_ok h6).elim
        | ok u3 =>
          rw [hq3] at h6
          have h7 : (requireCol (combinedOf sales bats sf) (depositColSalesOf sales)).bind
              (fun _ => Except.ok (outOf sales bats sf, summaryOf sales bats sf))
              = Except.ok (out, sm) := h6
          cases hq4 : requireCol (combinedOf sales bats sf) (depositColSalesOf sales) with
          | error e =>
            rw [hq4] at h7
            exact (except_bind_error_ne_ok h7).elim
          | ok u4 =>
            rw [hq4] at h7
            have he : (outOf sales bats sf, summaryOf sales bats sf) = (out, sm) :=
              Except.ok.inj h7
            exact Or.inr ⟨(congrArg Prod.fst he).symm, (congrArg Prod.snd he).symm⟩

/-- Fact C4: in a successful run, every row of the matched-sales table reports
the summed deposit of its `(source, customer_name, agent)` group of unioned
pass-1/pass-2 matches, and the comma-joined lexicographically sorted set of the
group's non-missing order ids. -/
theorem claim_C4_grouping (sales bats sf out sm : Frame)
    (h1 : missingListOf sales bats = [])
    (h2 : cleanDepositOf sales = Except.ok sf)
    (h3 : process_sales_data sales bats = Except.ok (out, sm)) :
    ∀ r ∈ out.rows,
      getCell r "Deposit" = Cell.num (sumDepositCells "Deposit"
        ((outPreOf sales bats sf).rows.filter (fun p =>
          getCell p "Source" == getCell r "Source" &&
          (getCell p "Name" == getCell r "Name" && getCell p "Agent" == getCell r "Agent"))))
      ∧ getCell r "Order ID" = Cell.str (orderIdsJoin
        ((outPreOf sales bats sf).rows.filter (fun p =>
          getCell p "Source" == getCell r "Source" &&
          (getCell p "Name" == getCell r "Name" && getCell p "Agent" == getCell r "Agent")))) := by
  rcases process_ok_inv sales bats h1 h2 h3 with ⟨hout, _⟩ | ⟨hout, _⟩
  · intro r hr
    rw [hout] at hr
    simp [emptyMatchedFrame] at hr
  · rw [hout]
    exact outOf_rows_spec sales bats sf

/-- Fact C4 witness: two order-id transactions of one customer collapse into a
single group summing the deposits and joining the order ids. -/
theorem claim_C4_witness :
    (process_sales_data exSales1 exBats1 = Except.ok
      (⟨["Source", "Name", "Agent", "Deposit", "Order ID"],
        [[("Source", Cell.str "FB"), ("Name", Cell.str "al"), ("Agent", Cell.str "x"),
          ("Deposit", Cell.num 150), ("Order ID", Cell.str "O1, O2")]]⟩,
       ⟨["Source", "Deposits", "Total_Unique_Sales"],
        [[("Source", Cell.str "FB"), ("Deposits", Cell.num 150),
          ("Total_Unique_Sales", Cell.num 1)]]⟩))
    ∧ (getCell [("Source", Cell.str "FB"), ("Name", Cell.str "al"), ("Agent", Cell.str "x"),
          ("Deposit", Cell.num 150), ("Order ID", Cell.str "O1, O2")] "Deposit"
        = Cell.num (sumDepositCells "Deposit"
          ((outPreOf exSales1 exBats1 exSalesClean1).rows.filter (fun p =>
            getCell p "Source" == Cell.str "FB" &&
            (getCell p "Name" == Cell.str "al" && getCell p "Agent" == Cell.str "x"))))
       ∧ getCell [("Source", Cell.str "FB"), ("Name", Cell.str "al"), ("Agent", Cell.str "x"),
          ("Deposit", Cell.num 150), ("Order ID", Cell.str "O1, O2")] "Order ID"
        = Cell.str (orderIdsJoin
          ((outPreOf exSales1 exBats1 exSalesClean1).rows.filter (fun p =>
            getCell p "Source" == Cell.str "FB" &&
            (getCell p "Name" == Cell.str "al" && getCell p "Agent" == Cell.str "x"))))) :=
  ⟨by with_unfolding_all decide,
   claim_C4_grouping exSales1 exBats1 exSalesClean1
     ⟨["Source", "Name", "Agent", "Deposit", "Order ID"],
      [[("Source", Cell.str "FB"), ("Name", Cell.str "al"), ("Agent", Cell.str "x"),
        ("Deposit", Cell.num 150), ("Order ID", Cell.str "O1, O2")]]⟩
     ⟨["Source", "Deposits", "Total_Unique_Sales"],
      [[("Source", Cell.str "FB"), ("Deposits", Cell.num 150),
        ("Total_Unique_Sales", Cell.num 1)]]⟩
     (by with_unfolding_all decide) (by with_unfolding_all decide)
     (by with_unfolding_all decide)
     [("Source", Cell.str "FB"), ("Name", Cell.str "al"), ("Agent", Cell.str "x"),
      ("Deposit", Cell.num 150), ("Order ID", Cell.str "O1, O2")]
     (by with_unfolding_all decide)⟩

/-! ## Claim C6: lead cost and total lead cost -/

/-- Fact C6: every report row computes `total_leads_cost` as
`round(total_leads * lead_cost, 2)` with the lead cost looked up in the cost
table (default 1.00), and scenario D holds concretely: with cost 2.5 and four
FB leads the total cost is 10.00. -/
theorem claim_C6_lead_cost :
    (∀ (ct : List (String × Rat)) (bats matched : Frame) (report : List ReportRow),
      compare_bats_sales ct bats matched = Except.ok report →
      ∀ r ∈ report,
        r.totalLeadsCost = roundTo2 ((r.totalLeads : Rat) * r.leadCost) ∧
        r.leadCost = (match r.source with
          | Cell.str s => ((ct.find? (fun q => q.1 == s)).map (fun q => q.2)).getD 1
          | _ => 1))
    ∧ compare_bats_sales [("FB", 5 / 2)] exBats6 emptyMatchedFrame =
        Except.ok [⟨Cell.str "FB", 4, "$0", 0, 5 / 2, 10⟩] := by
  constructor
  · intro ct bats matched report hok r hr
    unfold compare_bats_sales at hok
    cases hfb : (stripColsFrame bats).cols.find? (fun c => containsSub "source" (pyLower c)) with
    | none =>
      rw [hfb] at hok
      exact absurd hok (by simp)
    | some srcB =>
      rw [hfb] at hok
      have hrep := Except.ok.inj hok
      rw [← hrep, mem_sortByB, List.mem_map] at hr
      rcases hr with ⟨p, hpl, he⟩
      subst he
      exact ⟨rfl, rfl⟩
  · with_unfolding_all decide

/-- Fact C6 witness: the law instantiated at the scenario-D report row. -/
theorem claim_C6_witness :
    (⟨Cell.str "FB", 4, "$0", 0, 5 / 2, 10⟩ : ReportRow).totalLeadsCost
      = roundTo2 (((⟨Cell.str "FB", 4, "$0", 0, 5 / 2, 10⟩ : ReportRow).totalLeads : Rat)
        * (⟨Cell.str "FB", 4, "$0", 0, 5 / 2, 10⟩ : ReportRow).leadCost)
    ∧ (⟨Cell.str "FB", 4, "$0", 0, 5 / 2, 10⟩ : ReportRow).leadCost
      = (match (⟨Cell.str "FB", 4, "$0", 0, 5 / 2, 10⟩ : ReportRow).source with
        | Cell.str s => ((([("FB", (5 : Rat) / 2)]).find? (fun q => q.1 == s)).map
            (fun q => q.2)).getD 1
        | _ => 1) :=
  claim_C6_lead_cost.1 [("FB", 5 / 2)] exBats6 emptyMatchedFrame
    [⟨Cell.str "FB", 4, "$0", 0, 5 / 2, 10⟩] claim_C6_lead_cost.2
    ⟨Cell.str "FB", 4, "$0", 0, 5 / 2, 10⟩ (List.mem_singleton.mpr rfl)

/-! ## Claim C5: unique-sales counting (amended) -/

theorem groupAgg_nil {κ α : Type} [DecidableEq κ] (isNaK : κ → Bool) (leB : κ → κ → Bool)
    (keyOf : Row → κ) (aggF : List Row → α) (dropna : Bool) :
    groupAgg isNaK leB keyOf aggF dropna [] = [] := by
  rw [groupAgg_eq]
  cases dropna <;> simp [dedupBy, sortByB]

theorem leftLookup_groupAgg {α : Type} (isNaK : Cell → Bool) (leB : Cell → Cell → Bool)
    (keyOf : Row → Cell) (aggF : List Row → α) (dropna : Bool) (rows : List Row) (k : Cell) :
    leftLookup (groupAgg isNaK leB keyOf aggF dropna rows) k =
      if k ∈ ((if dropna then rows.filter (fun r => !(isNaK (keyOf r))) else rows).map keyOf)
      then some (aggF ((if dropna then rows.filter (fun r => !(isNaK (keyOf r)))
        else rows).filter (fun r => keyOf r == k)))
      else none := by
  rw [groupAgg_eq, leftLookup_map_graph]
  by_cases hk : k ∈ ((if dropna then rows.filter (fun r => !(isNaK (keyOf r))) else rows).map keyOf)
  · rw [if_pos ((mem_sortByB _ _ _).mpr (mem_dedupBy_id.mpr hk)), if_pos hk]
  · rw [if_neg (fun hc => hk (mem_dedupBy_id.mp ((mem_sortByB _ _ _).mp hc))), if_neg hk]

/-- Shape of the grouped matched-table rows: canonical five entries, string
order-id display value, non-missing source. -/
theorem outOf_rows_shape (sales bats sf : Frame) :
    ∀ r ∈ (outOf sales bats sf).rows, ∃ k0 k1 k2 d jj,
      r = [("Source", k0), ("Name", k1), ("Agent", k2), ("Deposit", Cell.num d),
           ("Order ID", Cell.str jj)] ∧ k0 ≠ Cell.na := by
  intro r hr
  have hr' : r ∈ (groupAgg key3Na key3LeB (key3Of "Source" "Name" "Agent")
      (fun g => (sumDepositCells "Deposit" g, orderIdsJoin g)) true
      (outPreOf sales bats sf).rows).map (fun ka =>
        [("Source", ka.1.1), ("Name", ka.1.2.1), ("Agent", ka.1.2.2),
         ("Deposit", Cell.num ka.2.1), ("Order ID", Cell.str ka.2.2)]) := hr
  rw [List.mem_map] at hr'
  rcases hr' with ⟨ka, hka, hre⟩
  rcases ka with ⟨⟨k0, k1, k2⟩, d, jj⟩
  refine ⟨k0, k1, k2, d, jj, hre.symm, ?_⟩
  rcases mem_groupAgg.mp hka with ⟨hk1, _⟩
  rw [if_pos rfl] at hk1
  rw [List.mem_map] at hk1
  rcases hk1 with ⟨p, hpf, hpe⟩
  have h5 := (List.mem_filter.mp hpf).2
  rw [hpe] at h5
  have h6 : key3Na (k0, k1, k2) = false := by simpa using h5
  unfold key3Na at h6
  simp at h6
  exact h6.1.1

/-- Keys of the per-source lead counts are non-missing sources. -/
theorem compareLeads_key_ne_na (bats : Frame) (srcB : String) :
    ∀ p ∈ compareLeads bats srcB, p.1 ≠ Cell.na := by
  intro p hp
  rcases mem_groupAgg.mp hp with ⟨hk1, _⟩
  rw [if_pos rfl] at hk1
  rw [List.mem_map] at hk1
  rcases hk1 with ⟨r, hrf, hre⟩
  have h5 := (List.mem_filter.mp hrf).2
  rw [hre] at h5
  simpa using h5

/-- Header stripping fixes the matched table (its column names carry no
surrounding whitespace). -/
theorem stripColsFrame_outOf (sales bats sf : Frame) :
    stripColsFrame (outOf sales bats sf) = outOf sales bats sf := by
  unfold stripColsFrame outOf
  congr 1
  rw [List.map_map]
  apply List.map_congr_left
  intro ka _
  rfl

/-- Source-column detection on the matched table finds the `Source` column. -/
theorem compareSalesSrc_outOf (sales bats sf : Frame) :
    compareSalesSrc (outOf sales bats sf) = (outOf sales bats sf, "Source") := by
  unfold compareSalesSrc
  rw [stripColsFrame_outOf]
  rfl

/-- The matched table already has a `Deposit` column. -/
theorem compareSales2_outOf (sales bats sf : Frame) :
    compareSales2 (outOf sales bats sf) = outOf sales bats sf := by
  unfold compareSales2
  rw [compareSalesSrc_outOf]
  rfl

/-- Unique-sales counting specification for a matched table in canonical form:
for every non-missing source key, the looked-up count is the number of distinct
order-id display values among the table rows of that source. -/
theorem compare_uniq_spec (matched : Frame)
    (hsrc : compareSalesSrc matched = (matched, "Source"))
    (hdep : compareSales2 matched = matched)
    (hoid : matched.cols.contains "Order ID" = true)
    (hnm : matched.cols.contains "Name" = true) (hag : matched.cols.contains "Agent" = true)
    (hshape : ∀ r ∈ matched.rows,
      (∃ jj, getCell r "Order ID" = Cell.str jj) ∧ getCell r "Source" ≠ Cell.na) :
    ∀ k, k ≠ Cell.na → (leftLookup (compareUniq matched) k).getD 0 =
      (dedupBy id ((matched.rows.filter (fun m => getCell m "Source" == k)).map
        (fun m => getCell m "Order ID"))).length := by
  intro k hk
  have hU : compareUniq matched =
      (if matched.cols.contains "Order ID"
          && matched.rows.any (fun r => !(getCell r "Order ID" == Cell.na)) then
        groupAgg (fun x => x == Cell.na) cellLeB (fun r => getCell r "Source")
          (fun g => (dedupBy id (g.map (fun r => getCell r "Order ID"))).length) true
          (matched.rows.filter (fun r => !(getCell r "Order ID" == Cell.na)))
      else if matched.cols.contains "Name" && matched.cols.contains "Agent" then
        groupAgg (fun x => x == Cell.na) cellLeB (fun r => getCell r "Source")
          (fun g => (dedupBy id (g.map (fun r =>
            pyStr (getCell r "Name") ++ "||" ++ pyStr (getCell r "Agent")))).length)
          true matched.rows
      else (compareDeposits matched).map (fun p => (p.1, 0))) := by
    unfold compareUniq
    rw [hsrc, hdep]
  rw [hU]
  cases hrows : matched.rows with
  | nil =>
    rw [if_neg (by simp), if_pos (by rw [hnm, hag]; rfl), groupAgg_nil]
    simp [leftLookup, dedupBy]
  | cons r0 rest =>
    have hmemr : ∀ r ∈ (r0 :: rest),
        (∃ jj, getCell r "Order ID" = Cell.str jj) ∧ getCell r "Source" ≠ Cell.na := by
      intro r hr
      exact hshape r (by rw [hrows]; exact hr)
    rcases (hmemr r0 (List.mem_cons_self r0 rest)).1 with ⟨jj0, hjj0⟩
    have hany : ((r0 :: rest).any (fun r => !(getCell r "Order ID" == Cell.na))) = true := by
      apply List.any_eq_true.mpr
      exact ⟨r0, List.mem_cons_self r0 rest, by rw [hjj0]; simp⟩
    rw [if_pos (by rw [hoid, hany]; rfl)]
    have hfoid : (r0 :: rest).filter (fun r => !(getCell r "Order ID" == Cell.na))
        = r0 :: rest := by
      apply List.filter_eq_self.mpr
      intro r hr
      rcases (hmemr r hr).1 with ⟨jj, hjj⟩
      rw [hjj]
      simp
    rw [hfoid, leftLookup_groupAgg, if_pos rfl]
    have hfsrc : (r0 :: rest).filter (fun r => !((getCell r "Source") == Cell.na))
        = r0 :: rest := by
      apply List.filter_eq_self.mpr
      intro r hr
      have := (hmemr r hr).2
      simpa using this
    simp only [hfsrc]
    by_cases hmem : k ∈ (r0 :: rest).map (fun r => getCell r "Source")
    · rw [if_pos hmem]
      rfl
    · rw [if_neg hmem]
      have hempty : (r0 :: rest).filter (fun m => getCell m "Source" == k) = [] := by
        apply List.filter_eq_nil_iff.mpr
        intro m hm hc
        apply hmem
        rw [List.mem_map]
        refine ⟨m, hm, ?_⟩
        simpa using hc
      rw [hempty]
      simp [dedupBy]

/-- Fact C5 (amended): in the final report built from a Matcher run, each row's
`total_unique_sales` is the number of distinct order-id display strings among
the matched-sales rows of that source - not the number of matched groups. -/
theorem claim_C5_amended (sales bats bats2 sf matched sm : Frame)
    (ct : List (String × Rat)) (report : List ReportRow)
    (h2 : cleanDepositOf sales = Except.ok sf)
    (hp : process_sales_data sales bats = Except.ok (matched, sm))
    (hc : compare_bats_sales ct bats2 matched = Except.ok report) :
    ∀ r ∈ report, r.totalUniqueSales =
      (dedupBy id ((matched.rows.filter (fun m => getCell m "Source" == r.source)).map
        (fun m => getCell m "Order ID"))).length := by
  unfold compare_bats_sales at hc
  cases hfb : (stripColsFrame bats2).cols.find? (fun c => containsSub "source" (pyLower c)) with
  | none =>
    rw [hfb] at hc
    exact absurd hc (by simp)
  | some srcB =>
    rw [hfb] at hc
    have hrep := Except.ok.inj hc
    intro r hr
    rw [← hrep, mem_sortByB, List.mem_map] at hr
    rcases hr with ⟨p, hpl, he⟩
    subst he
    have hpne : p.1 ≠ Cell.na := compareLeads_key_ne_na bats2 srcB p hpl
    show (leftLookup (compareUniq matched) p.1).getD 0 =
      (dedupBy id ((matched.rows.filter (fun m => getCell m "Source" == p.1)).map
        (fun m => getCell m "Order ID"))).length
    by_cases h1 : missingListOf sales bats = []
    · rcases process_ok_inv sales bats h1 h2 hp with ⟨hm, _⟩ | ⟨hm, _⟩
      · rw [hm]
        exact compare_uniq_spec emptyMatchedFrame (by with_unfolding_all decide)
          (by with_unfolding_all decide) (by with_unfolding_all decide)
          (by with_unfolding_all decide) (by with_unfolding_all decide)
          (by intro r hr; simp [emptyMatchedFrame] at hr) p.1 hpne
      · rw [hm]
        refine compare_uniq_spec (outOf sales bats sf) (compareSalesSrc_outOf sales bats sf)
          (compareSales2_outOf sales bats sf) rfl rfl rfl ?_ p.1 hpne
        intro r2 hr2
        rcases outOf_rows_shape sales bats sf r2 hr2 with ⟨k0, k1, k2, d, jj, hre, hk0⟩
        subst hre
        exact ⟨⟨jj, rfl⟩, hk0⟩
    · exfalso
      unfold process_sales_data at hp
      rw [if_neg h1] at hp
      exact absurd hp (by simp)

/-- Fact C5 counterexample to the claim as stated: a run with two matched
groups of one source but no order ids reports `total_unique_sales = 1` for
that source, not 2. -/
theorem claim_C5_counterexample :
    process_sales_data exSales3 exBats3 = Except.ok (exMatched3, exSummary3)
    ∧ compare_bats_sales [] exBats3 exMatched3 =
        Except.ok [⟨Cell.str "FB", 2, "$150", 1, 1, 2⟩]
    ∧ (dedupBy id ((exMatched3.rows.filter (fun m =>
        getCell m "Source" == Cell.str "FB")).map (fun m =>
          (getCell m "Source", getCell m "Name", getCell m "Agent")))).length = 2
    ∧ (⟨Cell.str "FB", 2, "$150", 1, 1, 2⟩ : ReportRow).totalUniqueSales = 1 :=
  ⟨by with_unfolding_all decide, by with_unfolding_all decide,
   by with_unfolding_all decide, rfl⟩

/-- Fact C5 witness: the amended law evaluated on the concrete run. -/
theorem claim_C5_witness :
    (⟨Cell.str "FB", 2, "$150", 1, 1, 2⟩ : ReportRow).totalUniqueSales =
      (dedupBy id ((exMatched3.rows.filter (fun m =>
        getCell m "Source" == (⟨Cell.str "FB", 2, "$150", 1, 1, 2⟩ : ReportRow).source)).map
        (fun m => getCell m "Order ID"))).length :=
  claim_C5_amended exSales3 exBats3 exBats3 exSalesClean3 exMatched3 exSummary3 []
    [⟨Cell.str "FB", 2, "$150", 1, 1, 2⟩]
    (by with_unfolding_all decide) (by with_unfolding_all decide)
    (by with_unfolding_all decide)
    ⟨Cell.str "FB", 2, "$150", 1, 1, 2⟩ (List.mem_singleton.mpr rfl)
